import Mathlib

/-!
Shallow embedding of the reconciliation/validation core of
`go/cmd/graphql/main.go` (opstrace admin REST API): credential value
validation (`validateCredValue`), YAML map-key coercion
(`recurseMapStringKeys`), the batch write handlers for credentials and
exporters (`writeCredentials` / `writeExporters`), and the read-response
shapes (`CredentialInfo`).

Modelling conventions:
- A decoded YAML document (Go `interface{}` from `gopkg.in/yaml.v2`) is the
  inductive `Yaml`: scalars, sequences (`[]interface{}`) and mappings
  (`map[interface{}]interface{}`, modelled as an association list).
- `graphql.Json` and `graphql.Timestamptz` are `String`.
- Go's `encoding/json` helpers used by the handlers (`json.Valid`,
  `json.Marshal`) are embedded as executable Lean functions (`jsonValid`,
  `jsonOfYaml`, `goJsonQuote`) following the stdlib's documented behaviour
  (RFC 8259 syntax; map keys sorted; HTML-escaping of `<`, `>`, `&`).
- The store clients are oracles: a write handler is a pure function from the
  request data plus a success/failure oracle per store call to the list of
  store calls it submits (its trace) and its result.
-/

/-- A decoded YAML document tree: Go `interface{}` as produced by
`gopkg.in/yaml.v2`. Mappings (`map[interface{}]interface{}`) may have
arbitrary (non-string) keys and are modelled as association lists. -/
inductive Yaml where
  | str (s : String)
  | int (n : Int)
  | bool (b : Bool)
  | null
  | seq (xs : List Yaml)
  | map (kvs : List (Yaml × Yaml))

/-- Hex digit character (lowercase), as used by Go `encoding/json` `\u00xx`
escapes. -/
def hexDigitChar (n : Nat) : Char :=
  if n < 10 then Char.ofNat (48 + n) else Char.ofNat (87 + n)

/-- Go `encoding/json` escaping of a single character inside a JSON string
(default encoder: escapes quote, backslash, control characters, and
HTML-escapes <, >, &, U+2028, U+2029). -/
def goJsonEscapeChar (c : Char) : List Char :=
  if c = '\"' then ['\\', '\"']
  else if c = '\\' then ['\\', '\\']
  else if c = '\n' then ['\\', 'n']
  else if c = '\r' then ['\\', 'r']
  else if c = '\t' then ['\\', 't']
  else if c = '<' then ['\\', 'u', '0', '0', '3', 'c']
  else if c = '>' then ['\\', 'u', '0', '0', '3', 'e']
  else if c = '&' then ['\\', 'u', '0', '0', '2', '6']
  else if c.toNat < 0x20 then
    ['\\', 'u', '0', '0', hexDigitChar (c.toNat / 16), hexDigitChar (c.toNat % 16)]
  else if c.toNat = 0x2028 then ['\\', 'u', '2', '0', '2', '8']
  else if c.toNat = 0x2029 then ['\\', 'u', '2', '0', '2', '9']
  else [c]

/-- Go `encoding/json` encoding of a string value (surrounding quotes plus
per-character escaping). -/
def goJsonQuote (s : String) : String :=
  "\"" ++ String.mk ((s.toList.map goJsonEscapeChar).flatten) ++ "\""

/-- JSON insignificant whitespace (RFC 8259). -/
def jsonWs (c : Char) : Bool :=
  c = ' ' || c = '\t' || c = '\n' || c = '\r'

/-- Skip leading JSON whitespace. -/
def skipJsonWs : List Char → List Char
  | [] => []
  | c :: cs => if jsonWs c then skipJsonWs cs else c :: cs

/-- ASCII hex digit test (for `\uXXXX` escapes). -/
def isHexDigitChar (c : Char) : Bool :=
  c.isDigit || ('a' ≤ c && c ≤ 'f') || ('A' ≤ c && c ≤ 'F')

/-- Parse the rest of a JSON string literal, after the opening quote;
returns the input remaining after the closing quote. -/
def jsonStringRest : Nat → List Char → Option (List Char)
  | 0, _ => none
  | _, [] => none
  | fuel+1, c :: cs =>
    if c = '\"' then some cs
    else if c = '\\' then
      match cs with
      | [] => none
      | e :: cs2 =>
        if e = '\"' || e = '\\' || e = '/' || e = 'b' || e = 'f'
            || e = 'n' || e = 'r' || e = 't' then
          jsonStringRest fuel cs2
        else if e = 'u' then
          match cs2 with
          | h1 :: h2 :: h3 :: h4 :: cs3 =>
            if isHexDigitChar h1 && isHexDigitChar h2
                && isHexDigitChar h3 && isHexDigitChar h4 then
              jsonStringRest fuel cs3
            else none
          | _ => none
        else none
    else if c.toNat < 0x20 then none
    else jsonStringRest fuel cs

/-- Skip a (possibly empty) run of ASCII digits. -/
def skipDigits : List Char → List Char
  | [] => []
  | c :: cs => if c.isDigit then skipDigits cs else c :: cs

/-- Require at least one ASCII digit, then skip the run. -/
def digits1 : List Char → Option (List Char)
  | [] => none
  | c :: cs => if c.isDigit then some (skipDigits cs) else none

/-- Optional JSON exponent part (`[eE][+-]?digits`). -/
def jsonExpPart : List Char → Option (List Char)
  | [] => some []
  | c :: cs =>
    if c = 'e' || c = 'E' then
      match cs with
      | [] => none
      | s :: cs2 => if s = '+' || s = '-' then digits1 cs2 else digits1 (s :: cs2)
    else some (c :: cs)

/-- Optional JSON fraction part followed by optional exponent part. -/
def jsonFracExp : List Char → Option (List Char)
  | '.' :: cs2 =>
    match digits1 cs2 with
    | some cs3 => jsonExpPart cs3
    | none => none
  | cs => jsonExpPart cs

/-- JSON number after the optional minus sign: `0` or nonzero-led digit run,
then fraction/exponent. -/
def jsonNumberAfterSign : List Char → Option (List Char)
  | [] => none
  | c :: cs =>
    if c = '0' then jsonFracExp cs
    else if c.isDigit then jsonFracExp (skipDigits cs)
    else none

/-- Match a literal run of characters (the tails of `true`/`false`/`null`). -/
def matchChars : List Char → List Char → Option (List Char)
  | [], cs => some cs
  | _ :: _, [] => none
  | p :: ps, c :: cs => if c = p then matchChars ps cs else none

mutual

/-- Parse one JSON value (RFC 8259), returning the remaining input. Fuel
bounds the recursion depth; `jsonValid` supplies enough for any input. -/
def jsonValue : Nat → List Char → Option (List Char)
  | 0, _ => none
  | fuel+1, cs =>
    match skipJsonWs cs with
    | [] => none
    | c :: cs2 =>
      if c = '{' then jsonObjectBody fuel cs2
      else if c = '[' then jsonArrayBody fuel cs2
      else if c = '\"' then jsonStringRest (cs2.length + 1) cs2
      else if c = '-' then jsonNumberAfterSign cs2
      else if c.isDigit then jsonNumberAfterSign (c :: cs2)
      else if c = 't' then matchChars ['r', 'u', 'e'] cs2
      else if c = 'f' then matchChars ['a', 'l', 's', 'e'] cs2
      else if c = 'n' then matchChars ['u', 'l', 'l'] cs2
      else none

/-- Parse a JSON object after the opening brace. -/
def jsonObjectBody : Nat → List Char → Option (List Char)
  | 0, _ => none
  | fuel+1, cs =>
    match skipJsonWs cs with
    | '}' :: cs2 => some cs2
    | cs2 => jsonMembers fuel cs2

/-- Parse one or more `"key": value` members, then the closing brace. -/
def jsonMembers : Nat → List Char → Option (List Char)
  | 0, _ => none
  | fuel+1, cs =>
    match skipJsonWs cs with
    | '\"' :: cs2 =>
      match jsonStringRest (cs2.length + 1) cs2 with
      | none => none
      | some cs3 =>
        match skipJsonWs cs3 with
        | ':' :: cs4 =>
          match jsonValue fuel cs4 with
          | none => none
          | some cs5 =>
            match skipJsonWs cs5 with
            | ',' :: cs6 => jsonMembers fuel cs6
            | '}' :: cs6 => some cs6
            | _ => none
        | _ => none
    | _ => none

/-- Parse a JSON array after the opening bracket. -/
def jsonArrayBody : Nat → List Char → Option (List Char)
  | 0, _ => none
  | fuel+1, cs =>
    match skipJsonWs cs with
    | ']' :: cs2 => some cs2
    | cs2 => jsonElems fuel cs2

/-- Parse one or more array elements, then the closing bracket. -/
def jsonElems : Nat → List Char → Option (List Char)
  | 0, _ => none
  | fuel+1, cs =>
    match jsonValue fuel cs with
    | none => none
    | some cs2 =>
      match skipJsonWs cs2 with
      | ',' :: cs3 => jsonElems fuel cs3
      | ']' :: cs3 => some cs3
      | _ => none

end

/-- Embedding of Go `json.Valid`: the string is one well-formed JSON value,
possibly surrounded by whitespace. -/
def jsonValid (s : String) : Bool :=
  match jsonValue (s.length * 4 + 8) s.toList with
  | some rest => (skipJsonWs rest).isEmpty
  | none => false

/-- Sanity checks of the `json.Valid` embedding on concrete inputs. -/
theorem jsonValid_sanity :
    jsonValid "\x7b\"a\":1\x7d" = true ∧
    jsonValid "\x7bnot valid json" = false ∧
    jsonValid "  [1, 2.5e-3, \"x\", true, null, \x7b\x7d]  " = true ∧
    jsonValid "" = false ∧
    jsonValid "\"unterminated" = false := by
  refine ⟨by decide, by decide, by decide, by decide, by decide⟩

/-- Errors produced by `validateCredValue`. Each constructor corresponds to
one `fmt.Errorf` in the Go source, carrying the format arguments:
`awsShape` is the aws-key shape error (reason ∈ wrong size / missing fields /
non-string fields / expected a map), `gcpInvalidJson` and `gcpNotString` are
the gcp-service-account shape errors, `unsupportedType` is the closed-switch
default ("unsupported credential type"). -/
inductive CredValueError where
  | awsShape (credType credName reason : String)
  | gcpInvalidJson (credType credName : String)
  | gcpNotString (credType credName : String)
  | unsupportedType (credType : String)
deriving DecidableEq

/-- Go map lookup `v["KEY"]` on a `map[interface{}]interface{}` with a string
key, on the association-list model: first entry whose key is the string. -/
def yamlLookup (kvs : List (Yaml × Yaml)) (key : String) : Option Yaml :=
  match kvs with
  | [] => none
  | (Yaml.str s, v) :: rest => if s = key then some v else yamlLookup rest key
  | _ :: rest => yamlLookup rest key

/-- Model of `json.Marshal(AWSCredentialValue{keystr, valstr})`: the two-field JSON
object, field order fixed by the struct declaration. -/
def awsCredentialValueJson (keystr valstr : String) : String :=
  "\x7b\"AWS_ACCESS_KEY_ID\":" ++ goJsonQuote keystr ++
    ",\"AWS_SECRET_ACCESS_KEY\":" ++ goJsonQuote valstr ++ "\x7d"

/-- Embedding of `validateCredValue` (main.go): closed switch over the
credential type; `aws-key` requires a two-entry mapping with string values
under `AWS_ACCESS_KEY_ID` / `AWS_SECRET_ACCESS_KEY` and re-encodes them as
JSON; `gcp-service-account` requires a string that is valid JSON and passes
it through; anything else is unsupported. (The Go second `len(v) != 2` test
inside the missing-fields check is redundant after the first and is folded
into it; `json.Marshal` of two strings cannot fail, so that error branch is
dead code and not modelled.) -/
def validateCredValue (credName credType : String) (credValue : Yaml) :
    Except CredValueError String :=
  if credType = "aws-key" then
    match credValue with
    | .map v =>
      if v.length ≠ 2 then .error (.awsShape credType credName "wrong size")
      else
        match yamlLookup v "AWS_ACCESS_KEY_ID", yamlLookup v "AWS_SECRET_ACCESS_KEY" with
        | some key, some val =>
          match key, val with
          | .str keystr, .str valstr => .ok (awsCredentialValueJson keystr valstr)
          | _, _ => .error (.awsShape credType credName "non-string fields")
        | _, _ => .error (.awsShape credType credName "missing fields")
    | _ => .error (.awsShape credType credName "expected a map")
  else if credType = "gcp-service-account" then
    match credValue with
    | .str v =>
      if jsonValid v then .ok v
      else .error (.gcpInvalidJson credType credName)
    | _ => .error (.gcpNotString credType credName)
  else .error (.unsupportedType credType)

/-- Error of `recurseMapStringKeys`: "map is invalid (keys must be
strings)". -/
inductive CoerceError where
  | mapKeysMustBeStrings
deriving DecidableEq

mutual

/-- Embedding of `recurseMapStringKeys` (main.go): recursively requires every
mapping key in the tree to be a string (error otherwise), recurses into
mapping values and sequence elements, and passes scalars through. -/
def recurseMapStringKeys : Yaml → Except CoerceError Yaml
  | .map kvs =>
    match recurseKvs kvs with
    | .ok kvs2 => .ok (.map kvs2)
    | .error e => .error e
  | .seq xs =>
    match recurseSeq xs with
    | .ok xs2 => .ok (.seq xs2)
    | .error e => .error e
  | y => .ok y

/-- Mapping-entry recursion of `recurseMapStringKeys`: each key must be a
string; values are recursed. -/
def recurseKvs : List (Yaml × Yaml) → Except CoerceError (List (Yaml × Yaml))
  | [] => .ok []
  | (Yaml.str s, v) :: rest =>
    match recurseMapStringKeys v with
    | .ok v2 =>
      match recurseKvs rest with
      | .ok rest2 => .ok ((Yaml.str s, v2) :: rest2)
      | .error e => .error e
    | .error e => .error e
  | (_, _) :: _ => .error .mapKeysMustBeStrings

/-- Sequence-element recursion of `recurseMapStringKeys`: elements recursed
in place, order preserved. -/
def recurseSeq : List Yaml → Except CoerceError (List Yaml)
  | [] => .ok []
  | v :: rest =>
    match recurseMapStringKeys v with
    | .ok v2 =>
      match recurseSeq rest with
      | .ok rest2 => .ok (v2 :: rest2)
      | .error e => .error e
    | .error e => .error e

end

mutual

/-- Spec-side predicate (§4.1): every mapping key anywhere in the tree is a
string. -/
def allStringKeys : Yaml → Bool
  | .map kvs => allStringKeysKvs kvs
  | .seq xs => allStringKeysSeq xs
  | _ => true

/-- Auxiliary: `allStringKeys` over mapping entries. -/
def allStringKeysKvs : List (Yaml × Yaml) → Bool
  | [] => true
  | (Yaml.str _, v) :: rest => allStringKeys v && allStringKeysKvs rest
  | (_, _) :: _ => false

/-- Auxiliary: `allStringKeys` over sequence elements. -/
def allStringKeysSeq : List Yaml → Bool
  | [] => true
  | v :: rest => allStringKeys v && allStringKeysSeq rest

end

/-- Comma-join of rendered JSON fragments. -/
def joinComma : List String → String
  | [] => ""
  | [s] => s
  | s :: rest => s ++ "," ++ joinComma rest

/-- Key of a coerced mapping entry (after `recurseMapStringKeys` every key is
`Yaml.str`; other constructors are unreachable there). -/
def yamlKeyString : Yaml → String
  | .str s => s
  | _ => ""

/-- Insert an entry into a key-sorted entry list (Go `encoding/json` sorts
object keys). -/
def insertEntry (p : String × String) : List (String × String) → List (String × String)
  | [] => [p]
  | q :: rest => if p.1 ≤ q.1 then p :: q :: rest else q :: insertEntry p rest

/-- Sort rendered object entries by key (insertion sort). -/
def sortEntries : List (String × String) → List (String × String)
  | [] => []
  | p :: rest => insertEntry p (sortEntries rest)

mutual

/-- Embedding of Go `json.Marshal` on a (string-keyed) document tree:
strings quoted with the Go encoder, numbers/booleans/null as literals,
sequences in order, mappings as objects with keys sorted. -/
def jsonOfYaml : Yaml → String
  | .str s => goJsonQuote s
  | .int n => toString n
  | .bool b => if b then "true" else "false"
  | .null => "null"
  | .seq xs => "[" ++ joinComma (jsonOfYamlSeq xs) ++ "]"
  | .map kvs =>
    "\x7b" ++
      joinComma ((sortEntries (jsonOfYamlKvs kvs)).map
        (fun p => goJsonQuote p.1 ++ ":" ++ p.2)) ++ "\x7d"

/-- Rendered sequence elements, in order. -/
def jsonOfYamlSeq : List Yaml → List String
  | [] => []
  | v :: rest => jsonOfYaml v :: jsonOfYamlSeq rest

/-- Rendered mapping entries (key string, rendered value), in input order
(sorted afterwards). -/
def jsonOfYamlKvs : List (Yaml × Yaml) → List (String × String)
  | [] => []
  | (k, v) :: rest => (yamlKeyString k, jsonOfYaml v) :: jsonOfYamlKvs rest

end

/-- A credential record decoded from one YAML document of a POST body
(Go struct `Credential`). -/
structure Credential where
  name : String
  type : String
  value : Yaml

/-- Embedding of `graphql.CredentialInsertInput` as populated by `writeCredentials`. -/
structure CredentialInsertInput where
  name : String
  type : String
  value : String
  createdAt : String
  updatedAt : String
deriving DecidableEq

/-- Embedding of `graphql.UpdateCredentialVariables` as populated by `writeCredentials`. -/
structure UpdateCredentialVariables where
  name : String
  value : String
  updatedAt : String
deriving DecidableEq

/-- Errors a credential write batch can end with; each constructor
corresponds to one `http.Error` call in `writeCredentials`, carrying the
data interpolated into the message. -/
inductive CredWriteError where
  | decodeError (index : Nat)
  | validation (e : CredValueError)
  | typeChange (name current attempted : String)
  | emptyBatch
  | insertFailed (count : Nat)
  | updateFailed (name : String)
deriving DecidableEq

/-- One store call submitted by `writeCredentials`: the single bulk
`credentialClient.Insert`, or one `credentialClient.Update`. -/
inductive CredStoreOp where
  | insertBulk (inserts : List CredentialInsertInput)
  | update (u : UpdateCredentialVariables)
deriving DecidableEq

/-- The decode/validate/classify loop of `writeCredentials`. The body is the
decoder's document stream: `some r` for a document that decodes to `r`,
`none` for a document that fails strict decoding (a non-EOF decoder error);
the list ending is EOF. `existingTypes` is the name→type map built from the
tenant's fetched credential list; `inserts`/`updates` are the accumulators.
Returns the two operation lists or the first error. -/
def credLoop (existingTypes : String → Option String) (now : String) :
    List (Option Credential) → List CredentialInsertInput →
    List UpdateCredentialVariables →
    Except CredWriteError (List CredentialInsertInput × List UpdateCredentialVariables)
  | [], inserts, updates => .ok (inserts, updates)
  | none :: _, inserts, updates => .error (.decodeError (inserts.length + updates.length))
  | some c :: rest, inserts, updates =>
    match validateCredValue c.name c.type c.value with
    | .error e => .error (.validation e)
    | .ok value =>
      match existingTypes c.name with
      | some existingType =>
        if c.type != "" && existingType != c.type then
          .error (.typeChange c.name existingType c.type)
        else
          credLoop existingTypes now rest inserts
            (updates ++ [⟨c.name, value, now⟩])
      | none =>
        credLoop existingTypes now rest
          (inserts ++ [⟨c.name, c.type, value, now, now⟩]) updates

/-- The update-submission loop of `writeCredentials`: submit each update in
order; stop right after the first failing call. `updateOk` is the store
oracle. Returns the submitted calls and the result. -/
def commitCredUpdates (updateOk : UpdateCredentialVariables → Bool) :
    List UpdateCredentialVariables → List CredStoreOp × Except CredWriteError Unit
  | [] => ([], .ok ())
  | u :: rest =>
    if updateOk u then
      let r := commitCredUpdates updateOk rest
      (CredStoreOp.update u :: r.1, r.2)
    else ([CredStoreOp.update u], .error (.updateFailed u.name))

/-- The commit phase of `writeCredentials`: one bulk insert call when there
are inserts (aborting on its failure), then the update loop. -/
def commitCredentials (insertOk : Bool) (updateOk : UpdateCredentialVariables → Bool)
    (inserts : List CredentialInsertInput) (updates : List UpdateCredentialVariables) :
    List CredStoreOp × Except CredWriteError Unit :=
  if inserts.length ≠ 0 then
    if insertOk then
      let r := commitCredUpdates updateOk updates
      (CredStoreOp.insertBulk inserts :: r.1, r.2)
    else ([CredStoreOp.insertBulk inserts], .error (.insertFailed inserts.length))
  else commitCredUpdates updateOk updates

/-- Embedding of `writeCredentials` after tenant extraction and the existing-list fetch:
run the decode/validate/classify loop; reject an all-empty batch; otherwise
commit. Returns the store calls submitted and the handler result. -/
def writeCredentialsCore (existingTypes : String → Option String) (now : String)
    (body : List (Option Credential)) (insertOk : Bool)
    (updateOk : UpdateCredentialVariables → Bool) :
    List CredStoreOp × Except CredWriteError Unit :=
  match credLoop existingTypes now body [] [] with
  | .error e => ([], .error e)
  | .ok (inserts, updates) =>
    if inserts.length + updates.length = 0 then ([], .error .emptyBatch)
    else commitCredentials insertOk updateOk inserts updates

/-- An exporter record decoded from one YAML document of a POST body
(Go struct `Exporter`). An absent `credential` field decodes to `""`. -/
structure Exporter where
  name : String
  type : String
  credential : String
  config : Yaml

/-- Embedding of `graphql.ExporterInsertInput` as populated by `writeExporters`
(`credential = none` models the nil pointer for an empty credential). -/
structure ExporterInsertInput where
  name : String
  type : String
  credential : Option String
  config : String
  createdAt : String
  updatedAt : String
deriving DecidableEq

/-- Embedding of `graphql.UpdateExporterVariables` as populated by `writeExporters`. -/
structure UpdateExporterVariables where
  name : String
  credential : Option String
  config : String
  updatedAt : String
deriving DecidableEq

/-- Errors an exporter write batch can end with; each constructor
corresponds to one `http.Error` call in `writeExporters`. `configInvalid`
is the `recurseMapStringKeys` failure ("config could not be encoded as
JSON"), `configNotMap` the non-mapping config ("must be YAML map"). -/
inductive ExpWriteError where
  | decodeError (index : Nat)
  | configInvalid (name : String)
  | configNotMap (name : String)
  | typeChange (name current attempted : String)
  | emptyBatch
  | insertFailed (count : Nat)
  | updateFailed (name : String)
deriving DecidableEq

/-- One store call submitted by `writeExporters`. -/
inductive ExpStoreOp where
  | insertBulk (inserts : List ExporterInsertInput)
  | update (u : UpdateExporterVariables)
deriving DecidableEq

/-- The optional credential reference of a submitted exporter: nil when the
field is empty. -/
def exporterCredentialRef (e : Exporter) : Option String :=
  if e.credential = "" then none else some e.credential

/-- The decode/validate/classify loop of `writeExporters`: the config must be
a mapping, is key-coerced by `recurseMapStringKeys` and marshalled to JSON;
then the record is classified against the fetched name→type map, rejecting
type changes. -/
def expLoop (existingTypes : String → Option String) (now : String) :
    List (Option Exporter) → List ExporterInsertInput →
    List UpdateExporterVariables →
    Except ExpWriteError (List ExporterInsertInput × List UpdateExporterVariables)
  | [], inserts, updates => .ok (inserts, updates)
  | none :: _, inserts, updates => .error (.decodeError (inserts.length + updates.length))
  | some e :: rest, inserts, updates =>
    match e.config with
    | .map kvs =>
      match recurseMapStringKeys (.map kvs) with
      | .error _ => .error (.configInvalid e.name)
      | .ok conv =>
        let gconfig := jsonOfYaml conv
        match existingTypes e.name with
        | some existingType =>
          if e.type != "" && existingType != e.type then
            .error (.typeChange e.name existingType e.type)
          else
            expLoop existingTypes now rest inserts
              (updates ++ [⟨e.name, exporterCredentialRef e, gconfig, now⟩])
        | none =>
          expLoop existingTypes now rest
            (inserts ++ [⟨e.name, e.type, exporterCredentialRef e, gconfig, now, now⟩])
            updates
    | _ => .error (.configNotMap e.name)

/-- The update-submission loop of `writeExporters`. -/
def commitExpUpdates (updateOk : UpdateExporterVariables → Bool) :
    List UpdateExporterVariables → List ExpStoreOp × Except ExpWriteError Unit
  | [] => ([], .ok ())
  | u :: rest =>
    if updateOk u then
      let r := commitExpUpdates updateOk rest
      (ExpStoreOp.update u :: r.1, r.2)
    else ([ExpStoreOp.update u], .error (.updateFailed u.name))

/-- The commit phase of `writeExporters`. -/
def commitExporters (insertOk : Bool) (updateOk : UpdateExporterVariables → Bool)
    (inserts : List ExporterInsertInput) (updates : List UpdateExporterVariables) :
    List ExpStoreOp × Except ExpWriteError Unit :=
  if inserts.length ≠ 0 then
    if insertOk then
      let r := commitExpUpdates updateOk updates
      (ExpStoreOp.insertBulk inserts :: r.1, r.2)
    else ([ExpStoreOp.insertBulk inserts], .error (.insertFailed inserts.length))
  else commitExpUpdates updateOk updates

/-- Embedding of `writeExporters` after tenant extraction and the existing-list fetch. -/
def writeExportersCore (existingTypes : String → Option String) (now : String)
    (body : List (Option Exporter)) (insertOk : Bool)
    (updateOk : UpdateExporterVariables → Bool) :
    List ExpStoreOp × Except ExpWriteError Unit :=
  match expLoop existingTypes now body [] [] with
  | .error e => ([], .error e)
  | .ok (inserts, updates) =>
    if inserts.length + updates.length = 0 then ([], .error .emptyBatch)
    else commitExporters insertOk updateOk inserts updates

/-- A credential row as returned by the store (`graphql` response fields
used by the read handlers); `value` is the stored secret. -/
structure StoredCredential where
  name : String
  type : String
  value : String
  createdAt : String
  updatedAt : String

/-- Embedding of `CredentialInfo` (main.go): the document encoded in credential read
responses. It has exactly the four fields below and, by construction, no
`value` field. -/
structure CredentialInfo where
  name : String
  type : String
  createdAt : String
  updatedAt : String
deriving DecidableEq

/-- The `CredentialInfo` built from a stored credential by `listCredentials`
and `getCredential`. -/
def credentialInfoOf (c : StoredCredential) : CredentialInfo :=
  ⟨c.name, c.type, c.createdAt, c.updatedAt⟩

/-- Embedding of the `listCredentials` response body: one encoded `CredentialInfo` per stored
credential, in list order. -/
def listCredentialsResponse (resp : List StoredCredential) : List CredentialInfo :=
  resp.map credentialInfoOf

/-- Embedding of the `getCredential` response body for a found credential (`none` models the
404 path). -/
def getCredentialResponse (resp : Option StoredCredential) : Option CredentialInfo :=
  resp.map credentialInfoOf

/-- Validity of a credential record per `validateCredValue`. -/
def credValid (c : Credential) : Bool :=
  match validateCredValue c.name c.type c.value with
  | .ok _ => true
  | .error _ => false

/-- The JSON payload produced by successful validation (and `""` on the
error paths, where it is never used). -/
def credValueJson (c : Credential) : String :=
  match validateCredValue c.name c.type c.value with
  | .ok v => v
  | .error _ => ""

/-- A body entry on which the credential loop aborts the batch: a document
that fails decoding, a value that fails validation, or a type-change
attempt against the fetched `existingTypes` map. -/
def credRecordBad (existingTypes : String → Option String) :
    Option Credential → Bool
  | none => true
  | some c =>
    match validateCredValue c.name c.type c.value with
    | .error _ => true
    | .ok _ =>
      match existingTypes c.name with
      | some t => c.type != "" && t != c.type
      | none => false

/-- The insert operation the credential loop produces for a record, when it
produces one (name absent from `existingTypes` and value valid). -/
def credInsertOf (existingTypes : String → Option String) (now : String)
    (c : Credential) : Option CredentialInsertInput :=
  match existingTypes c.name, validateCredValue c.name c.type c.value with
  | none, .ok v => some ⟨c.name, c.type, v, now, now⟩
  | _, _ => none

/-- The update operation the credential loop produces for a record, when it
produces one (name present in `existingTypes` and value valid). -/
def credUpdateOf (existingTypes : String → Option String) (now : String)
    (c : Credential) : Option UpdateCredentialVariables :=
  match existingTypes c.name, validateCredValue c.name c.type c.value with
  | some _, .ok v => some ⟨c.name, v, now⟩
  | _, _ => none

theorem credLoop_cons_decodeErr (et : String → Option String) (now : String)
    (rest : List (Option Credential)) (ins : List CredentialInsertInput)
    (upds : List UpdateCredentialVariables) :
    credLoop et now (none :: rest) ins upds =
      .error (.decodeError (ins.length + upds.length)) := rfl

theorem credLoop_cons_invalid {c : Credential} {e : CredValueError}
    (et : String → Option String) (now : String) (rest : List (Option Credential))
    (ins : List CredentialInsertInput) (upds : List UpdateCredentialVariables)
    (hv : validateCredValue c.name c.type c.value = .error e) :
    credLoop et now (some c :: rest) ins upds = .error (.validation e) := by
  simp [credLoop, hv]

theorem credLoop_cons_typeChange {c : Credential} {v : String} {t : String}
    {et : String → Option String} (now : String) (rest : List (Option Credential))
    (ins : List CredentialInsertInput) (upds : List UpdateCredentialVariables)
    (hv : validateCredValue c.name c.type c.value = .ok v)
    (he : et c.name = some t) (h1 : c.type ≠ "") (h2 : t ≠ c.type) :
    credLoop et now (some c :: rest) ins upds =
      .error (.typeChange c.name t c.type) := by
  have hb : (c.type != "" && t != c.type) = true := by
    simp [bne_iff_ne, h1, h2]
  simp [credLoop, hv, he, hb]

theorem credLoop_cons_update {c : Credential} {v : String} {t : String}
    {et : String → Option String} (now : String) (rest : List (Option Credential))
    (ins : List CredentialInsertInput) (upds : List UpdateCredentialVariables)
    (hv : validateCredValue c.name c.type c.value = .ok v)
    (he : et c.name = some t) (h : c.type = "" ∨ t = c.type) :
    credLoop et now (some c :: rest) ins upds =
      credLoop et now rest ins (upds ++ [⟨c.name, v, now⟩]) := by
  have hb : (c.type != "" && t != c.type) = false := by
    rcases h with h | h <;> simp [bne_iff_ne, h]
  simp [credLoop, hv, he, hb]

theorem credLoop_cons_insert {c : Credential} {v : String}
    {et : String → Option String} (now : String) (rest : List (Option Credential))
    (ins : List CredentialInsertInput) (upds : List UpdateCredentialVariables)
    (hv : validateCredValue c.name c.type c.value = .ok v)
    (he : et c.name = none) :
    credLoop et now (some c :: rest) ins upds =
      credLoop et now rest (ins ++ [⟨c.name, c.type, v, now, now⟩]) upds := by
  simp [credLoop, hv, he]

theorem credLoop_abort_of_bad (et : String → Option String) (now : String) :
    ∀ (body : List (Option Credential)) (ins : List CredentialInsertInput)
      (upds : List UpdateCredentialVariables),
      (∃ x ∈ body, credRecordBad et x = true) →
      ∃ e, credLoop et now body ins upds = .error e := by
  intro body
  induction body with
  | nil =>
    intro ins upds h
    simp at h
  | cons x rest ih =>
    intro ins upds h
    match x with
    | none => exact ⟨_, credLoop_cons_decodeErr et now rest ins upds⟩
    | some c =>
      cases hv : validateCredValue c.name c.type c.value with
      | error e =>
        exact ⟨.validation e, credLoop_cons_invalid et now rest ins upds hv⟩
      | ok v =>
        have hrest_of : credRecordBad et (some c) = false →
            ∃ x ∈ rest, credRecordBad et x = true := by
          intro hok
          rcases h with ⟨y, hy, hbad⟩
          rcases List.mem_cons.mp hy with h1 | h2
          · subst h1; rw [hok] at hbad; exact absurd hbad (by simp)
          · exact ⟨y, h2, hbad⟩
        cases he : et c.name with
        | some t =>
          by_cases hc : (c.type != "" && t != c.type) = true
          · have h1 : c.type ≠ "" := by
              have := (Bool.and_eq_true _ _).mp hc
              simpa [bne_iff_ne] using this.1
            have h2 : t ≠ c.type := by
              have := (Bool.and_eq_true _ _).mp hc
              simpa [bne_iff_ne] using this.2
            exact ⟨_, credLoop_cons_typeChange now rest ins upds hv he h1 h2⟩
          · have hok : credRecordBad et (some c) = false := by
              simp only [credRecordBad, hv, he]
              exact Bool.eq_false_iff.mpr hc
            have hcases : c.type = "" ∨ t = c.type := by
              rcases Bool.and_eq_false_iff.mp (Bool.eq_false_iff.mpr hc) with hh | hh
              · left; simpa [bne_iff_ne] using hh
              · right; simpa [bne_iff_ne] using hh
            obtain ⟨e, he2⟩ := ih ins (upds ++ [⟨c.name, v, now⟩]) (hrest_of hok)
            exact ⟨e, by rw [credLoop_cons_update now rest ins upds hv he hcases]; exact he2⟩
        | none =>
          have hok : credRecordBad et (some c) = false := by
            simp [credRecordBad, hv, he]
          obtain ⟨e, he2⟩ := ih (ins ++ [⟨c.name, c.type, v, now, now⟩]) upds (hrest_of hok)
          exact ⟨e, by rw [credLoop_cons_insert now rest ins upds hv he]; exact he2⟩

theorem credLoop_append_ok (et : String → Option String) (now : String) :
    ∀ (recs : List Credential), (∀ c ∈ recs, credRecordBad et (some c) = false) →
      ∀ (ins : List CredentialInsertInput) (upds : List UpdateCredentialVariables)
        (body2 : List (Option Credential)),
        credLoop et now (recs.map some ++ body2) ins upds =
          credLoop et now body2 (ins ++ recs.filterMap (credInsertOf et now))
            (upds ++ recs.filterMap (credUpdateOf et now)) := by
  intro recs
  induction recs with
  | nil => intro _ ins upds body2; simp
  | cons c rest ih =>
    intro h ins upds body2
    have hc := h c (List.mem_cons_self c rest)
    have hrest : ∀ x ∈ rest, credRecordBad et (some x) = false :=
      fun x hx => h x (List.mem_cons_of_mem _ hx)
    cases hv : validateCredValue c.name c.type c.value with
    | error e =>
      exfalso
      simp [credRecordBad, hv] at hc
    | ok v =>
      cases he : et c.name with
      | none =>
        rw [List.map_cons, List.cons_append,
          credLoop_cons_insert now _ ins upds hv he, ih hrest]
        simp [credInsertOf, credUpdateOf, hv, he, List.filterMap_cons]
      | some t =>
        have hcases : c.type = "" ∨ t = c.type := by
          simp only [credRecordBad, hv, he] at hc
          rcases Bool.and_eq_false_iff.mp hc with hh | hh
          · left; simpa [bne_iff_ne] using hh
          · right; simpa [bne_iff_ne] using hh
        rw [List.map_cons, List.cons_append,
          credLoop_cons_update now _ ins upds hv he hcases, ih hrest]
        simp [credInsertOf, credUpdateOf, hv, he, List.filterMap_cons]

theorem credLoop_all_ok (et : String → Option String) (now : String)
    (recs : List Credential) (h : ∀ c ∈ recs, credRecordBad et (some c) = false) :
    credLoop et now (recs.map some) [] [] =
      .ok (recs.filterMap (credInsertOf et now), recs.filterMap (credUpdateOf et now)) := by
  have := credLoop_append_ok et now recs h [] [] []
  simpa [credLoop] using this

theorem commitCredUpdates_all_ok (uo : UpdateCredentialVariables → Bool) :
    ∀ (upds : List UpdateCredentialVariables), (∀ u ∈ upds, uo u = true) →
      commitCredUpdates uo upds = (upds.map CredStoreOp.update, .ok ()) := by
  intro upds
  induction upds with
  | nil => intro _; rfl
  | cons u rest ih =>
    intro h
    have hu : uo u = true := h u (List.mem_cons_self u rest)
    have hrest := ih fun x hx => h x (List.mem_cons_of_mem _ hx)
    simp [commitCredUpdates, hu, hrest]

theorem commitCredUpdates_first_fail (uo : UpdateCredentialVariables → Bool) :
    ∀ (good : List UpdateCredentialVariables) (bad : UpdateCredentialVariables)
      (rest : List UpdateCredentialVariables),
      (∀ u ∈ good, uo u = true) → uo bad = false →
      commitCredUpdates uo (good ++ bad :: rest) =
        (good.map CredStoreOp.update ++ [CredStoreOp.update bad],
          .error (.updateFailed bad.name)) := by
  intro good
  induction good with
  | nil => intro bad rest _ hbad; simp [commitCredUpdates, hbad]
  | cons u gs ih =>
    intro bad rest h hbad
    have hu : uo u = true := h u (List.mem_cons_self u gs)
    have := ih bad rest (fun x hx => h x (List.mem_cons_of_mem _ hx)) hbad
    simp [commitCredUpdates, hu, this]

theorem commitCredentials_insert_fail (uo : UpdateCredentialVariables → Bool)
    (ins : List CredentialInsertInput) (upds : List UpdateCredentialVariables)
    (hne : ins ≠ []) :
    commitCredentials false uo ins upds =
      ([CredStoreOp.insertBulk ins], .error (.insertFailed ins.length)) := by
  have : ins.length ≠ 0 := by simpa using hne
  simp [commitCredentials, this]

theorem commitCredentials_insert_ok (uo : UpdateCredentialVariables → Bool)
    (ins : List CredentialInsertInput) (upds : List UpdateCredentialVariables)
    (hne : ins ≠ []) :
    commitCredentials true uo ins upds =
      (CredStoreOp.insertBulk ins :: (commitCredUpdates uo upds).1,
        (commitCredUpdates uo upds).2) := by
  have : ins.length ≠ 0 := by simpa using hne
  simp [commitCredentials, this]

theorem commitCredentials_no_inserts (io : Bool) (uo : UpdateCredentialVariables → Bool)
    (upds : List UpdateCredentialVariables) :
    commitCredentials io uo [] upds = commitCredUpdates uo upds := by
  simp [commitCredentials]

theorem writeCredentialsCore_of_loop_error {et : String → Option String}
    {now : String} {body : List (Option Credential)} {e : CredWriteError}
    (io : Bool) (uo : UpdateCredentialVariables → Bool)
    (h : credLoop et now body [] [] = .error e) :
    writeCredentialsCore et now body io uo = ([], .error e) := by
  simp [writeCredentialsCore, h]

theorem writeCredentialsCore_of_loop_ok {et : String → Option String}
    {now : String} {body : List (Option Credential)}
    {ins : List CredentialInsertInput} {upds : List UpdateCredentialVariables}
    (io : Bool) (uo : UpdateCredentialVariables → Bool)
    (h : credLoop et now body [] [] = .ok (ins, upds))
    (hne : ins.length + upds.length ≠ 0) :
    writeCredentialsCore et now body io uo = commitCredentials io uo ins upds := by
  simp [writeCredentialsCore, h, hne]

/-- Whether a document tree is a mapping at the top level (the Go type
switch arm `map[interface{}]interface{}` in `writeExporters`). -/
def yamlIsMap : Yaml → Bool
  | .map _ => true
  | _ => false

/-- The JSON config payload `writeExporters` produces for a record, when it
produces one: the config is a mapping, key coercion succeeds, and the
coerced tree is marshalled. -/
def expConfigJson (e : Exporter) : Option String :=
  match e.config with
  | .map kvs =>
    match recurseMapStringKeys (.map kvs) with
    | .ok conv => some (jsonOfYaml conv)
    | .error _ => none
  | _ => none

/-- A body entry on which the exporter loop aborts the batch: decode
failure, non-mapping config, key-coercion failure, or a type-change
attempt. -/
def expRecordBad (existingTypes : String → Option String) :
    Option Exporter → Bool
  | none => true
  | some e =>
    match expConfigJson e with
    | none => true
    | some _ =>
      match existingTypes e.name with
      | some t => e.type != "" && t != e.type
      | none => false

/-- The insert operation the exporter loop produces for a record, when it
produces one. -/
def expInsertOf (existingTypes : String → Option String) (now : String)
    (e : Exporter) : Option ExporterInsertInput :=
  match existingTypes e.name, expConfigJson e with
  | none, some g => some ⟨e.name, e.type, exporterCredentialRef e, g, now, now⟩
  | _, _ => none

/-- The update operation the exporter loop produces for a record, when it
produces one. -/
def expUpdateOf (existingTypes : String → Option String) (now : String)
    (e : Exporter) : Option UpdateExporterVariables :=
  match existingTypes e.name, expConfigJson e with
  | some _, some g => some ⟨e.name, exporterCredentialRef e, g, now⟩
  | _, _ => none

theorem expConfigJson_eq_some {e : Exporter} {g : String}
    (h : expConfigJson e = some g) :
    ∃ kvs conv, e.config = .map kvs ∧ recurseMapStringKeys (.map kvs) = .ok conv ∧
      g = jsonOfYaml conv := by
  cases hc : e.config with
  | map kvs =>
    simp only [expConfigJson, hc] at h
    cases hr : recurseMapStringKeys (.map kvs) with
    | ok conv =>
      rw [hr] at h
      exact ⟨kvs, conv, rfl, hr, by simpa using h.symm⟩
    | error ce =>
      rw [hr] at h
      exact absurd h (by simp)
  | str s => simp [expConfigJson, hc] at h
  | int n => simp [expConfigJson, hc] at h
  | bool b => simp [expConfigJson, hc] at h
  | null => simp [expConfigJson, hc] at h
  | seq xs => simp [expConfigJson, hc] at h

theorem expLoop_cons_decodeErr (et : String → Option String) (now : String)
    (rest : List (Option Exporter)) (ins : List ExporterInsertInput)
    (upds : List UpdateExporterVariables) :
    expLoop et now (none :: rest) ins upds =
      .error (.decodeError (ins.length + upds.length)) := rfl

theorem expLoop_cons_notMap {e : Exporter} (et : String → Option String)
    (now : String) (rest : List (Option Exporter)) (ins : List ExporterInsertInput)
    (upds : List UpdateExporterVariables) (h : yamlIsMap e.config = false) :
    expLoop et now (some e :: rest) ins upds = .error (.configNotMap e.name) := by
  cases hc : e.config with
  | map kvs => rw [hc] at h; simp [yamlIsMap] at h
  | str s => simp [expLoop, hc]
  | int n => simp [expLoop, hc]
  | bool b => simp [expLoop, hc]
  | null => simp [expLoop, hc]
  | seq xs => simp [expLoop, hc]

theorem expLoop_cons_configInvalid {e : Exporter} {kvs : List (Yaml × Yaml)}
    {ce : CoerceError} (et : String → Option String) (now : String)
    (rest : List (Option Exporter)) (ins : List ExporterInsertInput)
    (upds : List UpdateExporterVariables) (hc : e.config = .map kvs)
    (hr : recurseMapStringKeys (.map kvs) = .error ce) :
    expLoop et now (some e :: rest) ins upds = .error (.configInvalid e.name) := by
  simp [expLoop, hc, hr]

theorem expLoop_cons_typeChange {e : Exporter} {g : String} {t : String}
    {et : String → Option String} (now : String) (rest : List (Option Exporter))
    (ins : List ExporterInsertInput) (upds : List UpdateExporterVariables)
    (hcfg : expConfigJson e = some g) (he : et e.name = some t)
    (h1 : e.type ≠ "") (h2 : t ≠ e.type) :
    expLoop et now (some e :: rest) ins upds =
      .error (.typeChange e.name t e.type) := by
  obtain ⟨kvs, conv, hc, hr, hg⟩ := expConfigJson_eq_some hcfg
  have hb : (e.type != "" && t != e.type) = true := by
    simp [bne_iff_ne, h1, h2]
  simp [expLoop, hc, hr, he, hb]

theorem expLoop_cons_update {e : Exporter} {g : String} {t : String}
    {et : String → Option String} (now : String) (rest : List (Option Exporter))
    (ins : List ExporterInsertInput) (upds : List UpdateExporterVariables)
    (hcfg : expConfigJson e = some g) (he : et e.name = some t)
    (h : e.type = "" ∨ t = e.type) :
    expLoop et now (some e :: rest) ins upds =
      expLoop et now rest ins (upds ++ [⟨e.name, exporterCredentialRef e, g, now⟩]) := by
  obtain ⟨kvs, conv, hc, hr, hg⟩ := expConfigJson_eq_some hcfg
  have hb : (e.type != "" && t != e.type) = false := by
    rcases h with h | h <;> simp [bne_iff_ne, h]
  simp [expLoop, hc, hr, he, hb, hg]

theorem expLoop_cons_insert {e : Exporter} {g : String}
    {et : String → Option String} (now : String) (rest : List (Option Exporter))
    (ins : List ExporterInsertInput) (upds : List UpdateExporterVariables)
    (hcfg : expConfigJson e = some g) (he : et e.name = none) :
    expLoop et now (some e :: rest) ins upds =
      expLoop et now rest
        (ins ++ [⟨e.name, e.type, exporterCredentialRef e, g, now, now⟩]) upds := by
  obtain ⟨kvs, conv, hc, hr, hg⟩ := expConfigJson_eq_some hcfg
  simp [expLoop, hc, hr, he, hg]

theorem expLoop_abort_of_bad (et : String → Option String) (now : String) :
    ∀ (body : List (Option Exporter)) (ins : List ExporterInsertInput)
      (upds : List UpdateExporterVariables),
      (∃ x ∈ body, expRecordBad et x = true) →
      ∃ err, expLoop et now body ins upds = .error err := by
  intro body
  induction body with
  | nil =>
    intro ins upds h
    simp at h
  | cons x rest ih =>
    intro ins upds h
    match x with
    | none => exact ⟨_, expLoop_cons_decodeErr et now rest ins upds⟩
    | some e =>
      have hrest_of : expRecordBad et (some e) = false →
          ∃ x ∈ rest, expRecordBad et x = true := by
        intro hok
        rcases h with ⟨y, hy, hbad⟩
        rcases List.mem_cons.mp hy with h1 | h2
        · subst h1; rw [hok] at hbad; exact absurd hbad (by simp)
        · exact ⟨y, h2, hbad⟩
      cases hcfg : expConfigJson e with
      | none =>
        cases hc : e.config with
        | map kvs =>
          cases hr : recurseMapStringKeys (.map kvs) with
          | ok conv =>
            exfalso
            simp [expConfigJson, hc, hr] at hcfg
          | error ce =>
            exact ⟨_, expLoop_cons_configInvalid et now rest ins upds hc hr⟩
        | str s => exact ⟨_, expLoop_cons_notMap et now rest ins upds (by rw [hc]; rfl)⟩
        | int n => exact ⟨_, expLoop_cons_notMap et now rest ins upds (by rw [hc]; rfl)⟩
        | bool b => exact ⟨_, expLoop_cons_notMap et now rest ins upds (by rw [hc]; rfl)⟩
        | null => exact ⟨_, expLoop_cons_notMap et now rest ins upds (by rw [hc]; rfl)⟩
        | seq xs => exact ⟨_, expLoop_cons_notMap et now rest ins upds (by rw [hc]; rfl)⟩
      | some g =>
        cases he : et e.name with
        | some t =>
          by_cases hcl : (e.type != "" && t != e.type) = true
          · have h1 : e.type ≠ "" := by
              have := (Bool.and_eq_true _ _).mp hcl
              simpa [bne_iff_ne] using this.1
            have h2 : t ≠ e.type := by
              have := (Bool.and_eq_true _ _).mp hcl
              simpa [bne_iff_ne] using this.2
            exact ⟨_, expLoop_cons_typeChange now rest ins upds hcfg he h1 h2⟩
          · have hok : expRecordBad et (some e) = false := by
              simp only [expRecordBad, hcfg, he]
              exact Bool.eq_false_iff.mpr hcl
            have hcases : e.type = "" ∨ t = e.type := by
              rcases Bool.and_eq_false_iff.mp (Bool.eq_false_iff.mpr hcl) with hh | hh
              · left; simpa [bne_iff_ne] using hh
              · right; simpa [bne_iff_ne] using hh
            obtain ⟨err, he2⟩ := ih ins
              (upds ++ [⟨e.name, exporterCredentialRef e, g, now⟩]) (hrest_of hok)
            exact ⟨err, by rw [expLoop_cons_update now rest ins upds hcfg he hcases]; exact he2⟩
        | none =>
          have hok : expRecordBad et (some e) = false := by
            simp [expRecordBad, hcfg, he]
          obtain ⟨err, he2⟩ := ih
            (ins ++ [⟨e.name, e.type, exporterCredentialRef e, g, now, now⟩]) upds
            (hrest_of hok)
          exact ⟨err, by rw [expLoop_cons_insert now rest ins upds hcfg he]; exact he2⟩

theorem expLoop_append_ok (et : String → Option String) (now : String) :
    ∀ (recs : List Exporter), (∀ e ∈ recs, expRecordBad et (some e) = false) →
      ∀ (ins : List ExporterInsertInput) (upds : List UpdateExporterVariables)
        (body2 : List (Option Exporter)),
        expLoop et now (recs.map some ++ body2) ins upds =
          expLoop et now body2 (ins ++ recs.filterMap (expInsertOf et now))
            (upds ++ recs.filterMap (expUpdateOf et now)) := by
  intro recs
  induction recs with
  | nil => intro _ ins upds body2; simp
  | cons e rest ih =>
    intro h ins upds body2
    have hc := h e (List.mem_cons_self e rest)
    have hrest : ∀ x ∈ rest, expRecordBad et (some x) = false :=
      fun x hx => h x (List.mem_cons_of_mem _ hx)
    cases hcfg : expConfigJson e with
    | none =>
      exfalso
      simp [expRecordBad, hcfg] at hc
    | some g =>
      cases he : et e.name with
      | none =>
        rw [List.map_cons, List.cons_append,
          expLoop_cons_insert now _ ins upds hcfg he, ih hrest]
        simp [expInsertOf, expUpdateOf, hcfg, he, List.filterMap_cons]
      | some t =>
        have hcases : e.type = "" ∨ t = e.type := by
          simp only [expRecordBad, hcfg, he] at hc
          rcases Bool.and_eq_false_iff.mp hc with hh | hh
          · left; simpa [bne_iff_ne] using hh
          · right; simpa [bne_iff_ne] using hh
        rw [List.map_cons, List.cons_append,
          expLoop_cons_update now _ ins upds hcfg he hcases, ih hrest]
        simp [expInsertOf, expUpdateOf, hcfg, he, List.filterMap_cons]

theorem expLoop_all_ok (et : String → Option String) (now : String)
    (recs : List Exporter) (h : ∀ e ∈ recs, expRecordBad et (some e) = false) :
    expLoop et now (recs.map some) [] [] =
      .ok (recs.filterMap (expInsertOf et now), recs.filterMap (expUpdateOf et now)) := by
  have := expLoop_append_ok et now recs h [] [] []
  simpa [expLoop] using this

theorem commitExpUpdates_all_ok (uo : UpdateExporterVariables → Bool) :
    ∀ (upds : List UpdateExporterVariables), (∀ u ∈ upds, uo u = true) →
      commitExpUpdates uo upds = (upds.map ExpStoreOp.update, .ok ()) := by
  intro upds
  induction upds with
  | nil => intro _; rfl
  | cons u rest ih =>
    intro h
    have hu : uo u = true := h u (List.mem_cons_self u rest)
    have hrest := ih fun x hx => h x (List.mem_cons_of_mem _ hx)
    simp [commitExpUpdates, hu, hrest]

theorem commitExpUpdates_first_fail (uo : UpdateExporterVariables → Bool) :
    ∀ (good : List UpdateExporterVariables) (bad : UpdateExporterVariables)
      (rest : List UpdateExporterVariables),
      (∀ u ∈ good, uo u = true) → uo bad = false →
      commitExpUpdates uo (good ++ bad :: rest) =
        (good.map ExpStoreOp.update ++ [ExpStoreOp.update bad],
          .error (.updateFailed bad.name)) := by
  intro good
  induction good with
  | nil => intro bad rest _ hbad; simp [commitExpUpdates, hbad]
  | cons u gs ih =>
    intro bad rest h hbad
    have hu : uo u = true := h u (List.mem_cons_self u gs)
    have := ih bad rest (fun x hx => h x (List.mem_cons_of_mem _ hx)) hbad
    simp [commitExpUpdates, hu, this]

theorem commitExporters_insert_fail (uo : UpdateExporterVariables → Bool)
    (ins : List ExporterInsertInput) (upds : List UpdateExporterVariables)
    (hne : ins ≠ []) :
    commitExporters false uo ins upds =
      ([ExpStoreOp.insertBulk ins], .error (.insertFailed ins.length)) := by
  have : ins.length ≠ 0 := by simpa using hne
  simp [commitExporters, this]

theorem commitExporters_insert_ok (uo : UpdateExporterVariables → Bool)
    (ins : List ExporterInsertInput) (upds : List UpdateExporterVariables)
    (hne : ins ≠ []) :
    commitExporters true uo ins upds =
      (ExpStoreOp.insertBulk ins :: (commitExpUpdates uo upds).1,
        (commitExpUpdates uo upds).2) := by
  have : ins.length ≠ 0 := by simpa using hne
  simp [commitExporters, this]

theorem commitExporters_no_inserts (io : Bool) (uo : UpdateExporterVariables → Bool)
    (upds : List UpdateExporterVariables) :
    commitExporters io uo [] upds = commitExpUpdates uo upds := by
  simp [commitExporters]

theorem writeExportersCore_of_loop_error {et : String → Option String}
    {now : String} {body : List (Option Exporter)} {err : ExpWriteError}
    (io : Bool) (uo : UpdateExporterVariables → Bool)
    (h : expLoop et now body [] [] = .error err) :
    writeExportersCore et now body io uo = ([], .error err) := by
  simp [writeExportersCore, h]

theorem writeExportersCore_of_loop_ok {et : String → Option String}
    {now : String} {body : List (Option Exporter)}
    {ins : List ExporterInsertInput} {upds : List UpdateExporterVariables}
    (io : Bool) (uo : UpdateExporterVariables → Bool)
    (h : expLoop et now body [] [] = .ok (ins, upds))
    (hne : ins.length + upds.length ≠ 0) :
    writeExportersCore et now body io uo = commitExporters io uo ins upds := by
  simp [writeExportersCore, h, hne]

mutual

theorem rmsk_ok_of_allString : ∀ (y : Yaml), allStringKeys y = true →
    recurseMapStringKeys y = .ok y
  | .str _, _ => rfl
  | .int _, _ => rfl
  | .bool _, _ => rfl
  | .null, _ => rfl
  | .seq xs, h => by
    have h2 : allStringKeysSeq xs = true := by simpa [allStringKeys] using h
    rw [recurseMapStringKeys, rmskSeq_ok_of_allString xs h2]
  | .map kvs, h => by
    have h2 : allStringKeysKvs kvs = true := by simpa [allStringKeys] using h
    rw [recurseMapStringKeys, rmskKvs_ok_of_allString kvs h2]

theorem rmskKvs_ok_of_allString : ∀ (kvs : List (Yaml × Yaml)),
    allStringKeysKvs kvs = true → recurseKvs kvs = .ok kvs
  | [], _ => rfl
  | (Yaml.str s, v) :: rest, h => by
    have h1 : allStringKeys v = true := by
      have := (Bool.and_eq_true _ _).mp (by simpa [allStringKeysKvs] using h)
      exact this.1
    have h2 : allStringKeysKvs rest = true := by
      have := (Bool.and_eq_true _ _).mp (by simpa [allStringKeysKvs] using h)
      exact this.2
    rw [recurseKvs, rmsk_ok_of_allString v h1, rmskKvs_ok_of_allString rest h2]
  | (Yaml.int _, _) :: _, h => by simp [allStringKeysKvs] at h
  | (Yaml.bool _, _) :: _, h => by simp [allStringKeysKvs] at h
  | (Yaml.null, _) :: _, h => by simp [allStringKeysKvs] at h
  | (Yaml.seq _, _) :: _, h => by simp [allStringKeysKvs] at h
  | (Yaml.map _, _) :: _, h => by simp [allStringKeysKvs] at h

theorem rmskSeq_ok_of_allString : ∀ (xs : List Yaml),
    allStringKeysSeq xs = true → recurseSeq xs = .ok xs
  | [], _ => rfl
  | v :: rest, h => by
    have h1 : allStringKeys v = true := by
      have := (Bool.and_eq_true _ _).mp (by simpa [allStringKeysSeq] using h)
      exact this.1
    have h2 : allStringKeysSeq rest = true := by
      have := (Bool.and_eq_true _ _).mp (by simpa [allStringKeysSeq] using h)
      exact this.2
    rw [recurseSeq, rmsk_ok_of_allString v h1, rmskSeq_ok_of_allString rest h2]

end

mutual

theorem rmsk_err_of_badKey : ∀ (y : Yaml), allStringKeys y = false →
    recurseMapStringKeys y = .error .mapKeysMustBeStrings
  | .str _, h => by simp [allStringKeys] at h
  | .int _, h => by simp [allStringKeys] at h
  | .bool _, h => by simp [allStringKeys] at h
  | .null, h => by simp [allStringKeys] at h
  | .seq xs, h => by
    have h2 : allStringKeysSeq xs = false := by simpa [allStringKeys] using h
    rw [recurseMapStringKeys, rmskSeq_err_of_badKey xs h2]
  | .map kvs, h => by
    have h2 : allStringKeysKvs kvs = false := by simpa [allStringKeys] using h
    rw [recurseMapStringKeys, rmskKvs_err_of_badKey kvs h2]

theorem rmskKvs_err_of_badKey : ∀ (kvs : List (Yaml × Yaml)),
    allStringKeysKvs kvs = false → recurseKvs kvs = .error .mapKeysMustBeStrings
  | [], h => by simp [allStringKeysKvs] at h
  | (Yaml.str s, v) :: rest, h => by
    have h2 : allStringKeys v = false ∨ allStringKeysKvs rest = false := by
      rcases Bool.and_eq_false_iff.mp (by simpa [allStringKeysKvs] using h) with hh | hh
      · exact Or.inl hh
      · exact Or.inr hh
    rcases h2 with h2 | h2
    · rw [recurseKvs, rmsk_err_of_badKey v h2]
    · cases hv : allStringKeys v with
      | true =>
        rw [recurseKvs, rmsk_ok_of_allString v hv, rmskKvs_err_of_badKey rest h2]
      | false =>
        rw [recurseKvs, rmsk_err_of_badKey v hv]
  | (Yaml.int _, _) :: _, _ => rfl
  | (Yaml.bool _, _) :: _, _ => rfl
  | (Yaml.null, _) :: _, _ => rfl
  | (Yaml.seq _, _) :: _, _ => rfl
  | (Yaml.map _, _) :: _, _ => rfl

theorem rmskSeq_err_of_badKey : ∀ (xs : List Yaml),
    allStringKeysSeq xs = false → recurseSeq xs = .error .mapKeysMustBeStrings
  | [], h => by simp [allStringKeysSeq] at h
  | v :: rest, h => by
    have h2 : allStringKeys v = false ∨ allStringKeysSeq rest = false := by
      rcases Bool.and_eq_false_iff.mp (by simpa [allStringKeysSeq] using h) with hh | hh
      · exact Or.inl hh
      · exact Or.inr hh
    rcases h2 with h2 | h2
    · rw [recurseSeq, rmsk_err_of_badKey v h2]
    · cases hv : allStringKeys v with
      | true =>
        rw [recurseSeq, rmsk_ok_of_allString v hv, rmskSeq_err_of_badKey rest h2]
      | false =>
        rw [recurseSeq, rmsk_err_of_badKey v hv]

end

/-- Spec-side shape (§4.2, aws-key): the value is a mapping with exactly two
entries, keyed `AWS_ACCESS_KEY_ID` and `AWS_SECRET_ACCESS_KEY`, both
string-valued. -/
def awsValueWellShaped (v : Yaml) : Prop :=
  ∃ kvs k s, v = Yaml.map kvs ∧ kvs.length = 2 ∧
    yamlLookup kvs "AWS_ACCESS_KEY_ID" = some (Yaml.str k) ∧
    yamlLookup kvs "AWS_SECRET_ACCESS_KEY" = some (Yaml.str s)

theorem validateCredValue_aws_cases (name : String) (v : Yaml) :
    awsValueWellShaped v ∨
      ∃ reason, validateCredValue name "aws-key" v =
        .error (.awsShape "aws-key" name reason) := by
  cases v with
  | map kvs =>
    by_cases hlen : kvs.length = 2
    · cases hk : yamlLookup kvs "AWS_ACCESS_KEY_ID" with
      | none =>
        exact Or.inr ⟨"missing fields", by simp [validateCredValue, hlen, hk]⟩
      | some key =>
        cases hs : yamlLookup kvs "AWS_SECRET_ACCESS_KEY" with
        | none =>
          exact Or.inr ⟨"missing fields", by simp [validateCredValue, hlen, hk, hs]⟩
        | some val =>
          cases key with
          | str k =>
            cases val with
            | str s => exact Or.inl ⟨kvs, k, s, rfl, hlen, hk, hs⟩
            | int n =>
              exact Or.inr ⟨"non-string fields", by simp [validateCredValue, hlen, hk, hs]⟩
            | bool b =>
              exact Or.inr ⟨"non-string fields", by simp [validateCredValue, hlen, hk, hs]⟩
            | null =>
              exact Or.inr ⟨"non-string fields", by simp [validateCredValue, hlen, hk, hs]⟩
            | seq xs =>
              exact Or.inr ⟨"non-string fields", by simp [validateCredValue, hlen, hk, hs]⟩
            | map m =>
              exact Or.inr ⟨"non-string fields", by simp [validateCredValue, hlen, hk, hs]⟩
          | int n =>
            exact Or.inr ⟨"non-string fields", by simp [validateCredValue, hlen, hk, hs]⟩
          | bool b =>
            exact Or.inr ⟨"non-string fields", by simp [validateCredValue, hlen, hk, hs]⟩
          | null =>
            exact Or.inr ⟨"non-string fields", by simp [validateCredValue, hlen, hk, hs]⟩
          | seq xs =>
            exact Or.inr ⟨"non-string fields", by simp [validateCredValue, hlen, hk, hs]⟩
          | map m =>
            exact Or.inr ⟨"non-string fields", by simp [validateCredValue, hlen, hk, hs]⟩
    · exact Or.inr ⟨"wrong size", by simp [validateCredValue, hlen]⟩
  | str s => exact Or.inr ⟨"expected a map", by simp [validateCredValue]⟩
  | int n => exact Or.inr ⟨"expected a map", by simp [validateCredValue]⟩
  | bool b => exact Or.inr ⟨"expected a map", by simp [validateCredValue]⟩
  | null => exact Or.inr ⟨"expected a map", by simp [validateCredValue]⟩
  | seq xs => exact Or.inr ⟨"expected a map", by simp [validateCredValue]⟩

theorem validateCredValue_aws_ok (name : String) (kvs : List (Yaml × Yaml))
    (k s : String) (hlen : kvs.length = 2)
    (hk : yamlLookup kvs "AWS_ACCESS_KEY_ID" = some (Yaml.str k))
    (hs : yamlLookup kvs "AWS_SECRET_ACCESS_KEY" = some (Yaml.str s)) :
    validateCredValue name "aws-key" (Yaml.map kvs) =
      .ok (awsCredentialValueJson k s) := by
  simp [validateCredValue, hlen, hk, hs]

/-- C4: `validateCredValue` on type `aws-key` succeeds iff the value is a
mapping with exactly two entries keyed `AWS_ACCESS_KEY_ID` and
`AWS_SECRET_ACCESS_KEY`, both string-valued; on success it returns the
two-field JSON object built from those strings; on any deviation it returns
the aws shape error naming the credential. -/
theorem C4_validate_aws_key (name : String) (v : Yaml) :
    ((∃ j, validateCredValue name "aws-key" v = .ok j) ↔ awsValueWellShaped v) ∧
    (∀ kvs k s, v = Yaml.map kvs → kvs.length = 2 →
      yamlLookup kvs "AWS_ACCESS_KEY_ID" = some (Yaml.str k) →
      yamlLookup kvs "AWS_SECRET_ACCESS_KEY" = some (Yaml.str s) →
      validateCredValue name "aws-key" v = .ok (awsCredentialValueJson k s)) ∧
    (¬ awsValueWellShaped v →
      ∃ reason, validateCredValue name "aws-key" v =
        .error (.awsShape "aws-key" name reason)) := by
  refine ⟨⟨?_, ?_⟩, ?_, ?_⟩
  · rintro ⟨j, hj⟩
    rcases validateCredValue_aws_cases name v with hsh | ⟨r, hr⟩
    · exact hsh
    · rw [hj] at hr
      exact absurd hr (by simp)
  · rintro ⟨kvs, k, s, rfl, hlen, hk, hs⟩
    exact ⟨awsCredentialValueJson k s, validateCredValue_aws_ok name kvs k s hlen hk hs⟩
  · rintro kvs k s rfl hlen hk hs
    exact validateCredValue_aws_ok name kvs k s hlen hk hs
  · intro hbad
    rcases validateCredValue_aws_cases name v with hsh | ⟨r, hr⟩
    · exact absurd hsh hbad
    · exact ⟨r, hr⟩

theorem C4_witness :
    (validateCredValue "c1" "aws-key"
      (Yaml.map [(Yaml.str "AWS_ACCESS_KEY_ID", Yaml.str "A"),
        (Yaml.str "AWS_SECRET_ACCESS_KEY", Yaml.str "B")]) =
      .ok "\x7b\"AWS_ACCESS_KEY_ID\":\"A\",\"AWS_SECRET_ACCESS_KEY\":\"B\"\x7d") ∧
    (∃ reason, validateCredValue "c1" "aws-key"
      (Yaml.map [(Yaml.str "AWS_ACCESS_KEY_ID", Yaml.str "A"),
        (Yaml.str "AWS_SECRET_ACCESS_KEY", Yaml.str "B"),
        (Yaml.str "EXTRA", Yaml.str "C")]) =
      .error (.awsShape "aws-key" "c1" reason)) := by
  constructor
  · have h := (C4_validate_aws_key "c1"
      (Yaml.map [(Yaml.str "AWS_ACCESS_KEY_ID", Yaml.str "A"),
        (Yaml.str "AWS_SECRET_ACCESS_KEY", Yaml.str "B")])).2.1
      [(Yaml.str "AWS_ACCESS_KEY_ID", Yaml.str "A"),
        (Yaml.str "AWS_SECRET_ACCESS_KEY", Yaml.str "B")] "A" "B" rfl rfl rfl rfl
    rw [h]
    rfl
  · refine (C4_validate_aws_key "c1" _).2.2 ?_
    rintro ⟨kvs, k, s, hv, hlen, hk, hs⟩
    have : kvs = [(Yaml.str "AWS_ACCESS_KEY_ID", Yaml.str "A"),
        (Yaml.str "AWS_SECRET_ACCESS_KEY", Yaml.str "B"),
        (Yaml.str "EXTRA", Yaml.str "C")] := by
      injection hv with h2
      exact h2.symm
    rw [this] at hlen
    simp at hlen

/-- C5: `validateCredValue` on type `gcp-service-account` succeeds iff the
value is a string whose contents are well-formed JSON (`jsonValid`, the
embedding of Go `json.Valid`); on success the payload is that string passed
through unchanged; a string failing JSON well-formedness or a non-string
value yields the corresponding shape error; and every type tag other than
`aws-key` and `gcp-service-account` is rejected as unsupported. -/
theorem C5_validate_gcp_and_unsupported (name : String) (v : Yaml) :
    ((∃ j, validateCredValue name "gcp-service-account" v = .ok j) ↔
      ∃ s, v = Yaml.str s ∧ jsonValid s = true) ∧
    (∀ s, v = Yaml.str s → jsonValid s = true →
      validateCredValue name "gcp-service-account" v = .ok s) ∧
    (∀ s, v = Yaml.str s → jsonValid s = false →
      validateCredValue name "gcp-service-account" v =
        .error (.gcpInvalidJson "gcp-service-account" name)) ∧
    ((∀ s, v ≠ Yaml.str s) →
      validateCredValue name "gcp-service-account" v =
        .error (.gcpNotString "gcp-service-account" name)) ∧
    (∀ t, t ≠ "aws-key" → t ≠ "gcp-service-account" →
      validateCredValue name t v = .error (.unsupportedType t)) := by
  refine ⟨⟨?_, ?_⟩, ?_, ?_, ?_, ?_⟩
  · rintro ⟨j, hj⟩
    cases v with
    | str s =>
      refine ⟨s, rfl, ?_⟩
      by_cases hvl : jsonValid s = true
      · exact hvl
      · rw [validateCredValue] at hj
        simp only [reduceIte] at hj
        rw [Bool.eq_false_iff.mpr hvl] at hj
        exact absurd hj (by simp)
    | int n => simp [validateCredValue] at hj
    | bool b => simp [validateCredValue] at hj
    | null => simp [validateCredValue] at hj
    | seq xs => simp [validateCredValue] at hj
    | map kvs => simp [validateCredValue] at hj
  · rintro ⟨s, rfl, hvalid⟩
    exact ⟨s, by simp [validateCredValue, hvalid]⟩
  · rintro s rfl hvalid
    simp [validateCredValue, hvalid]
  · rintro s rfl hvalid
    simp [validateCredValue, hvalid]
  · intro hne
    cases v with
    | str s => exact absurd rfl (hne s)
    | int n => simp [validateCredValue]
    | bool b => simp [validateCredValue]
    | null => simp [validateCredValue]
    | seq xs => simp [validateCredValue]
    | map kvs => simp [validateCredValue]
  · intro t h1 h2
    simp [validateCredValue, h1, h2]

theorem C5_witness :
    (validateCredValue "c2" "gcp-service-account" (Yaml.str "\x7b\"a\":1\x7d") =
      .ok "\x7b\"a\":1\x7d") ∧
    (validateCredValue "c2" "gcp-service-account" (Yaml.str "\x7bnot valid json") =
      .error (.gcpInvalidJson "gcp-service-account" "c2")) ∧
    (validateCredValue "c2" "gcp-service-account" (Yaml.int 3) =
      .error (.gcpNotString "gcp-service-account" "c2")) ∧
    (validateCredValue "c2" "azure-key" (Yaml.str "x") =
      .error (.unsupportedType "azure-key")) := by
  refine ⟨?_, ?_, ?_, ?_⟩
  · exact (C5_validate_gcp_and_unsupported "c2" (Yaml.str "\x7b\"a\":1\x7d")).2.1
      "\x7b\"a\":1\x7d" rfl (by decide)
  · exact (C5_validate_gcp_and_unsupported "c2" (Yaml.str "\x7bnot valid json")).2.2.1
      "\x7bnot valid json" rfl (by decide)
  · exact (C5_validate_gcp_and_unsupported "c2" (Yaml.int 3)).2.2.2.1
      (fun s h => by injection h)
  · exact (C5_validate_gcp_and_unsupported "c2" (Yaml.str "x")).2.2.2.2
      "azure-key" (by decide) (by decide)

/-- C6: `recurseMapStringKeys` fails with the keys-must-be-strings error
exactly when some mapping anywhere in the tree has a non-string key
(`allStringKeys` false), and otherwise succeeds returning a tree
structurally identical to the input — every mapping keeps the same
entries (values normalized recursively), every sequence keeps its elements
in order, every scalar is unchanged; on the association-list model this is
the identity on the tree. -/
theorem C6_recurseMapStringKeys_normalize (y : Yaml) :
    (allStringKeys y = true → recurseMapStringKeys y = .ok y) ∧
    (allStringKeys y = false →
      recurseMapStringKeys y = .error .mapKeysMustBeStrings) :=
  ⟨rmsk_ok_of_allString y, rmsk_err_of_badKey y⟩

theorem C6_witness :
    (recurseMapStringKeys
      (Yaml.map [(Yaml.str "a", Yaml.seq [Yaml.int 1, Yaml.map [(Yaml.str "b", Yaml.null)]])]) =
      .ok (Yaml.map [(Yaml.str "a", Yaml.seq [Yaml.int 1, Yaml.map [(Yaml.str "b", Yaml.null)]])])) ∧
    (recurseMapStringKeys (Yaml.map [(Yaml.str "a", Yaml.map [(Yaml.int 3, Yaml.null)])]) =
      .error .mapKeysMustBeStrings) :=
  ⟨(C6_recurseMapStringKeys_normalize _).1 rfl,
    (C6_recurseMapStringKeys_normalize _).2 rfl⟩

/-- Two stored credentials that agree on everything except possibly the
secret `value`. -/
def sameExceptValue (c1 c2 : StoredCredential) : Prop :=
  c1.name = c2.name ∧ c1.type = c2.type ∧
    c1.createdAt = c2.createdAt ∧ c1.updatedAt = c2.updatedAt

/-- C8: credential read responses are built only from name, type,
created_at and updated_at (the `CredentialInfo` fields) and never from the
secret value: two stores differing only in credential values produce
identical list and get responses. -/
theorem C8_responses_independent_of_value :
    (∀ c1 c2 : StoredCredential, sameExceptValue c1 c2 →
      credentialInfoOf c1 = credentialInfoOf c2) ∧
    (∀ l1 l2 : List StoredCredential, List.Forall₂ sameExceptValue l1 l2 →
      listCredentialsResponse l1 = listCredentialsResponse l2) ∧
    (∀ c1 c2 : StoredCredential, sameExceptValue c1 c2 →
      getCredentialResponse (some c1) = getCredentialResponse (some c2)) ∧
    getCredentialResponse none = none := by
  have hone : ∀ c1 c2 : StoredCredential, sameExceptValue c1 c2 →
      credentialInfoOf c1 = credentialInfoOf c2 := by
    intro c1 c2 h
    obtain ⟨h1, h2, h3, h4⟩ := h
    simp [credentialInfoOf, h1, h2, h3, h4]
  refine ⟨hone, ?_, ?_, rfl⟩
  · intro l1 l2 h
    induction h with
    | nil => rfl
    | cons hab _ ih =>
      simp only [listCredentialsResponse, List.map_cons] at ih ⊢
      rw [hone _ _ hab, ih]
  · intro c1 c2 h
    show some (credentialInfoOf c1) = some (credentialInfoOf c2)
    rw [hone _ _ h]

theorem C8_witness :
    listCredentialsResponse
      [⟨"c1", "aws-key", "SECRET-A", "t1", "t2"⟩] =
      listCredentialsResponse [⟨"c1", "aws-key", "SECRET-B", "t1", "t2"⟩] ∧
    getCredentialResponse (some ⟨"c1", "aws-key", "SECRET-A", "t1", "t2"⟩) =
      getCredentialResponse (some ⟨"c1", "aws-key", "SECRET-B", "t1", "t2"⟩) :=
  ⟨C8_responses_independent_of_value.2.1 _ _
      (List.Forall₂.cons ⟨rfl, rfl, rfl, rfl⟩ List.Forall₂.nil),
    C8_responses_independent_of_value.2.2.1 _ _ ⟨rfl, rfl, rfl, rfl⟩⟩

/-- C1: for both write batches, if any submitted record fails to decode
(`none` in the body) or fails per-record validation (credential value
shape, unsupported credential type, exporter config not a map or with
non-string keys, or a type-change attempt — the `credRecordBad` /
`expRecordBad` predicates), then the handler submits no insert and no
update store call (empty trace) and returns an error. -/
theorem C1_validation_failure_aborts_batch :
    (∀ (et : String → Option String) (now : String) (body : List (Option Credential))
      (io : Bool) (uo : UpdateCredentialVariables → Bool),
      (∃ x ∈ body, credRecordBad et x = true) →
      ∃ e, writeCredentialsCore et now body io uo = ([], .error e)) ∧
    (∀ (et : String → Option String) (now : String) (body : List (Option Exporter))
      (io : Bool) (uo : UpdateExporterVariables → Bool),
      (∃ x ∈ body, expRecordBad et x = true) →
      ∃ err, writeExportersCore et now body io uo = ([], .error err)) := by
  constructor
  · intro et now body io uo h
    obtain ⟨e, he⟩ := credLoop_abort_of_bad et now body [] [] h
    exact ⟨e, writeCredentialsCore_of_loop_error io uo he⟩
  · intro et now body io uo h
    obtain ⟨err, he⟩ := expLoop_abort_of_bad et now body [] [] h
    exact ⟨err, writeExportersCore_of_loop_error io uo he⟩

theorem C1_witness :
    (∃ e, writeCredentialsCore (fun _ => none) "T"
      [some ⟨"ok", "gcp-service-account", Yaml.str "1"⟩,
        some ⟨"c1", "bogus-type", Yaml.null⟩] true (fun _ => true) =
      ([], .error e)) ∧
    (∃ err, writeExportersCore (fun _ => none) "T"
      [some ⟨"e1", "cloudwatch", "", Yaml.str "not-a-map"⟩] true (fun _ => true) =
      ([], .error err)) :=
  ⟨C1_validation_failure_aborts_batch.1 (fun _ => none) "T" _ true (fun _ => true)
      ⟨some ⟨"c1", "bogus-type", Yaml.null⟩, by simp, rfl⟩,
    C1_validation_failure_aborts_batch.2 (fun _ => none) "T" _ true (fun _ => true)
      ⟨some ⟨"e1", "cloudwatch", "", Yaml.str "not-a-map"⟩, by simp, rfl⟩⟩

/-- The successfully marshalled config of an exporter record (and `""` on
the error paths, where it is never used). -/
def expConfigJsonD (e : Exporter) : String :=
  (expConfigJson e).getD ""

/-- C2: against an empty existing-resource set, a batch of N valid records
produces exactly N inserts and 0 updates, each insert carrying
`created_at = updated_at = now`; and in general a validated record whose
name is absent from the existing set becomes an insert candidate carrying
name, type, value/config and the two `now` timestamps — for both the
credential and the exporter handler. -/
theorem C2_fresh_batch_all_inserts :
    (∀ (et : String → Option String) (now : String) (recs : List Credential),
      (∀ n, et n = none) → (∀ c ∈ recs, credValid c = true) →
      (recs.map Credential.name).Nodup →
      credLoop et now (recs.map some) [] [] =
        .ok (recs.map (fun c => ⟨c.name, c.type, credValueJson c, now, now⟩), []) ∧
      (recs.map (fun c =>
        (⟨c.name, c.type, credValueJson c, now, now⟩ : CredentialInsertInput))).length
        = recs.length ∧
      (∀ i ∈ recs.map (fun c =>
          (⟨c.name, c.type, credValueJson c, now, now⟩ : CredentialInsertInput)),
        i.createdAt = now ∧ i.updatedAt = now)) ∧
    (∀ (et : String → Option String) (now : String) (recs : List Exporter),
      (∀ n, et n = none) → (∀ e ∈ recs, (expConfigJson e).isSome = true) →
      (recs.map Exporter.name).Nodup →
      expLoop et now (recs.map some) [] [] =
        .ok (recs.map (fun e =>
          ⟨e.name, e.type, exporterCredentialRef e, expConfigJsonD e, now, now⟩), []) ∧
      (recs.map (fun e =>
        (⟨e.name, e.type, exporterCredentialRef e, expConfigJsonD e, now, now⟩ :
          ExporterInsertInput))).length = recs.length ∧
      (∀ i ∈ recs.map (fun e =>
          (⟨e.name, e.type, exporterCredentialRef e, expConfigJsonD e, now, now⟩ :
            ExporterInsertInput)),
        i.createdAt = now ∧ i.updatedAt = now)) ∧
    (∀ (et : String → Option String) (now : String) (c : Credential)
      (rest : List (Option Credential)) (ins : List CredentialInsertInput)
      (upds : List UpdateCredentialVariables) (v : String),
      validateCredValue c.name c.type c.value = .ok v → et c.name = none →
      credLoop et now (some c :: rest) ins upds =
        credLoop et now rest (ins ++ [⟨c.name, c.type, v, now, now⟩]) upds) ∧
    (∀ (et : String → Option String) (now : String) (e : Exporter)
      (rest : List (Option Exporter)) (ins : List ExporterInsertInput)
      (upds : List UpdateExporterVariables) (g : String),
      expConfigJson e = some g → et e.name = none →
      expLoop et now (some e :: rest) ins upds =
        expLoop et now rest
          (ins ++ [⟨e.name, e.type, exporterCredentialRef e, g, now, now⟩]) upds) := by
  refine ⟨?_, ?_, ?_, ?_⟩
  · intro et now recs hempty hvalid _
    have hok : ∀ c ∈ recs, credRecordBad et (some c) = false := by
      intro c hc
      have hv := hvalid c hc
      cases hval : validateCredValue c.name c.type c.value with
      | error e => rw [credValid, hval] at hv; exact absurd hv (by simp)
      | ok v => simp [credRecordBad, hval, hempty c.name]
    have h1 : recs.filterMap (credInsertOf et now) =
        recs.map (fun c => ⟨c.name, c.type, credValueJson c, now, now⟩) := by
      refine List.filterMap_eq_map_iff_forall_eq_some.mpr ?_
      intro c hc
      have hv := hvalid c hc
      cases hval : validateCredValue c.name c.type c.value with
      | error e => rw [credValid, hval] at hv; exact absurd hv (by simp)
      | ok v => simp [credInsertOf, credValueJson, hempty c.name, hval]
    have h2 : recs.filterMap (credUpdateOf et now) = [] := by
      refine List.filterMap_eq_nil_iff.mpr ?_
      intro c hc
      simp [credUpdateOf, hempty c.name]
    refine ⟨?_, by simp, by simp +contextual⟩
    rw [credLoop_all_ok et now recs hok, h1, h2]
  · intro et now recs hempty hvalid _
    have hok : ∀ e ∈ recs, expRecordBad et (some e) = false := by
      intro e he
      have hv := hvalid e he
      cases hval : expConfigJson e with
      | none => rw [hval] at hv; exact absurd hv (by simp)
      | some g => simp [expRecordBad, hval, hempty e.name]
    have h1 : recs.filterMap (expInsertOf et now) =
        recs.map (fun e =>
          ⟨e.name, e.type, exporterCredentialRef e, expConfigJsonD e, now, now⟩) := by
      refine List.filterMap_eq_map_iff_forall_eq_some.mpr ?_
      intro e he
      have hv := hvalid e he
      cases hval : expConfigJson e with
      | none => rw [hval] at hv; exact absurd hv (by simp)
      | some g => simp [expInsertOf, expConfigJsonD, hempty e.name, hval]
    have h2 : recs.filterMap (expUpdateOf et now) = [] := by
      refine List.filterMap_eq_nil_iff.mpr ?_
      intro e he
      simp [expUpdateOf, hempty e.name]
    refine ⟨?_, by simp, by simp +contextual⟩
    rw [expLoop_all_ok et now recs hok, h1, h2]
  · intro et now c rest ins upds v hv he
    exact credLoop_cons_insert now rest ins upds hv he
  · intro et now e rest ins upds g hg he
    exact expLoop_cons_insert now rest ins upds hg he

theorem C2_witness :
    (credLoop (fun _ => none) "T"
      [some ⟨"c1", "aws-key",
        Yaml.map [(Yaml.str "AWS_ACCESS_KEY_ID", Yaml.str "A"),
          (Yaml.str "AWS_SECRET_ACCESS_KEY", Yaml.str "B")]⟩] [] [] =
      .ok ([⟨"c1", "aws-key",
        credValueJson ⟨"c1", "aws-key",
          Yaml.map [(Yaml.str "AWS_ACCESS_KEY_ID", Yaml.str "A"),
            (Yaml.str "AWS_SECRET_ACCESS_KEY", Yaml.str "B")]⟩, "T", "T"⟩], [])) ∧
    (expLoop (fun _ => none) "T"
      [some ⟨"e1", "cloudwatch", "cred1", Yaml.map [(Yaml.str "k", Yaml.int 1)]⟩] [] [] =
      .ok ([⟨"e1", "cloudwatch", some "cred1",
        expConfigJsonD ⟨"e1", "cloudwatch", "cred1", Yaml.map [(Yaml.str "k", Yaml.int 1)]⟩,
        "T", "T"⟩], [])) ∧
    (credLoop (fun _ => none) "T"
      [some ⟨"c1", "gcp-service-account", Yaml.str "\x7b\"a\":1\x7d"⟩] [] [] =
      credLoop (fun _ => none) "T" []
        ([] ++ [⟨"c1", "gcp-service-account", "\x7b\"a\":1\x7d", "T", "T"⟩]) []) ∧
    (expLoop (fun _ => none) "T"
      [some ⟨"e1", "cloudwatch", "", Yaml.map []⟩] [] [] =
      expLoop (fun _ => none) "T" []
        ([] ++ [⟨"e1", "cloudwatch", none, "\x7b\x7d", "T", "T"⟩]) []) := by
  refine ⟨?_, ?_, ?_, ?_⟩
  · have h := (C2_fresh_batch_all_inserts.1 (fun _ => none) "T"
      [⟨"c1", "aws-key",
        Yaml.map [(Yaml.str "AWS_ACCESS_KEY_ID", Yaml.str "A"),
          (Yaml.str "AWS_SECRET_ACCESS_KEY", Yaml.str "B")]⟩]
      (fun _ => rfl)
      (by intro c hc; rw [List.mem_singleton] at hc; subst hc; rfl)
      (by simp)).1
    exact h
  · have h := (C2_fresh_batch_all_inserts.2.1 (fun _ => none) "T"
      [⟨"e1", "cloudwatch", "cred1", Yaml.map [(Yaml.str "k", Yaml.int 1)]⟩]
      (fun _ => rfl)
      (by intro e he; rw [List.mem_singleton] at he; subst he; rfl)
      (by simp)).1
    exact h
  · exact C2_fresh_batch_all_inserts.2.2.1 (fun _ => none) "T"
      ⟨"c1", "gcp-service-account", Yaml.str "\x7b\"a\":1\x7d"⟩ [] [] []
      "\x7b\"a\":1\x7d" rfl rfl
  · exact C2_fresh_batch_all_inserts.2.2.2 (fun _ => none) "T"
      ⟨"e1", "cloudwatch", "", Yaml.map []⟩ [] [] [] "\x7b\x7d" rfl rfl

/-- C3: for a validated record whose name is in the existing set — if the
submitted type is non-empty and differs from the stored type, the whole
batch fails with the type-change error naming the resource, its current
type and the attempted type, and zero store operations are committed (for
any prefix of valid records before it); if the type is empty or matches,
the record contributes exactly one update operation carrying the new
value/config and the batch's `now` — for both handlers. -/
theorem C3_type_change_and_update :
    (∀ (et : String → Option String) (now : String) (pre : List Credential)
      (c : Credential) (rest : List (Option Credential)) (io : Bool)
      (uo : UpdateCredentialVariables → Bool) (t v : String),
      (∀ x ∈ pre, credRecordBad et (some x) = false) →
      validateCredValue c.name c.type c.value = .ok v →
      et c.name = some t → c.type ≠ "" → t ≠ c.type →
      writeCredentialsCore et now (pre.map some ++ some c :: rest) io uo =
        ([], .error (.typeChange c.name t c.type))) ∧
    (∀ (et : String → Option String) (now : String) (c : Credential)
      (rest : List (Option Credential)) (ins : List CredentialInsertInput)
      (upds : List UpdateCredentialVariables) (t v : String),
      validateCredValue c.name c.type c.value = .ok v →
      et c.name = some t → (c.type = "" ∨ t = c.type) →
      credLoop et now (some c :: rest) ins upds =
        credLoop et now rest ins (upds ++ [⟨c.name, v, now⟩])) ∧
    (∀ (et : String → Option String) (now : String) (pre : List Exporter)
      (e : Exporter) (rest : List (Option Exporter)) (io : Bool)
      (uo : UpdateExporterVariables → Bool) (t g : String),
      (∀ x ∈ pre, expRecordBad et (some x) = false) →
      expConfigJson e = some g →
      et e.name = some t → e.type ≠ "" → t ≠ e.type →
      writeExportersCore et now (pre.map some ++ some e :: rest) io uo =
        ([], .error (.typeChange e.name t e.type))) ∧
    (∀ (et : String → Option String) (now : String) (e : Exporter)
      (rest : List (Option Exporter)) (ins : List ExporterInsertInput)
      (upds : List UpdateExporterVariables) (t g : String),
      expConfigJson e = some g →
      et e.name = some t → (e.type = "" ∨ t = e.type) →
      expLoop et now (some e :: rest) ins upds =
        expLoop et now rest ins (upds ++ [⟨e.name, exporterCredentialRef e, g, now⟩])) := by
  refine ⟨?_, ?_, ?_, ?_⟩
  · intro et now pre c rest io uo t v hpre hv he h1 h2
    have hloop : credLoop et now (pre.map some ++ some c :: rest) [] [] =
        .error (.typeChange c.name t c.type) := by
      rw [credLoop_append_ok et now pre hpre [] [] (some c :: rest)]
      exact credLoop_cons_typeChange now rest _ _ hv he h1 h2
    exact writeCredentialsCore_of_loop_error io uo hloop
  · intro et now c rest ins upds t v hv he h
    exact credLoop_cons_update now rest ins upds hv he h
  · intro et now pre e rest io uo t g hpre hg he h1 h2
    have hloop : expLoop et now (pre.map some ++ some e :: rest) [] [] =
        .error (.typeChange e.name t e.type) := by
      rw [expLoop_append_ok et now pre hpre [] [] (some e :: rest)]
      exact expLoop_cons_typeChange now rest _ _ hg he h1 h2
    exact writeExportersCore_of_loop_error io uo hloop
  · intro et now e rest ins upds t g hg he h
    exact expLoop_cons_update now rest ins upds hg he h

theorem C3_witness :
    (writeCredentialsCore (fun n => if n = "c1" then some "aws-key" else none) "T"
      [some ⟨"c1", "gcp-service-account", Yaml.str "\x7b\"a\":1\x7d"⟩]
      true (fun _ => true) =
      ([], .error (.typeChange "c1" "aws-key" "gcp-service-account"))) ∧
    (credLoop (fun n => if n = "c1" then some "gcp-service-account" else none) "T"
      [some ⟨"c1", "gcp-service-account", Yaml.str "\x7b\"a\":1\x7d"⟩] [] [] =
      credLoop (fun n => if n = "c1" then some "gcp-service-account" else none) "T"
        [] [] ([] ++ [⟨"c1", "\x7b\"a\":1\x7d", "T"⟩])) ∧
    (writeExportersCore (fun n => if n = "e1" then some "cloudwatch" else none) "T"
      [some ⟨"e1", "stackdriver", "", Yaml.map []⟩] true (fun _ => true) =
      ([], .error (.typeChange "e1" "cloudwatch" "stackdriver"))) ∧
    (expLoop (fun n => if n = "e1" then some "cloudwatch" else none) "T"
      [some ⟨"e1", "", "", Yaml.map []⟩] [] [] =
      expLoop (fun n => if n = "e1" then some "cloudwatch" else none) "T"
        [] [] ([] ++ [⟨"e1", none, "\x7b\x7d", "T"⟩])) := by
  refine ⟨?_, ?_, ?_, ?_⟩
  · exact C3_type_change_and_update.1
      (fun n => if n = "c1" then some "aws-key" else none) "T" []
      ⟨"c1", "gcp-service-account", Yaml.str "\x7b\"a\":1\x7d"⟩ [] true (fun _ => true)
      "aws-key" "\x7b\"a\":1\x7d" (by intro x hx; simp at hx) rfl rfl
      (by decide) (by decide)
  · exact C3_type_change_and_update.2.1
      (fun n => if n = "c1" then some "gcp-service-account" else none) "T"
      ⟨"c1", "gcp-service-account", Yaml.str "\x7b\"a\":1\x7d"⟩ [] [] []
      "gcp-service-account" "\x7b\"a\":1\x7d" rfl rfl (Or.inr rfl)
  · exact C3_type_change_and_update.2.2.1
      (fun n => if n = "e1" then some "cloudwatch" else none) "T" []
      ⟨"e1", "stackdriver", "", Yaml.map []⟩ [] true (fun _ => true)
      "cloudwatch" "\x7b\x7d" (by intro x hx; simp at hx) rfl rfl
      (by decide) (by decide)
  · exact C3_type_change_and_update.2.2.2
      (fun n => if n = "e1" then some "cloudwatch" else none) "T"
      ⟨"e1", "", "", Yaml.map []⟩ [] [] [] "cloudwatch" "\x7b\x7d" rfl rfl (Or.inl rfl)

/-- C7: once validation of a batch succeeds, the handler's store-call trace
is exactly the commit phase's: when inserts exist they are submitted first
as one bulk call (and its failure ends processing with only that call
submitted); updates are then submitted one at a time in the order their
records appeared in the body — all of them when every call succeeds, and
exactly the successful prefix plus the first failing call otherwise; calls
already submitted are never followed by any compensating/rollback call
(the trace contains nothing else). Stated for both handlers. -/
theorem C7_commit_semantics :
    (∀ (et : String → Option String) (now : String) (body : List (Option Credential))
      (io : Bool) (uo : UpdateCredentialVariables → Bool)
      (ins : List CredentialInsertInput) (upds : List UpdateCredentialVariables),
      credLoop et now body [] [] = .ok (ins, upds) → ins.length + upds.length ≠ 0 →
      writeCredentialsCore et now body io uo = commitCredentials io uo ins upds) ∧
    (∀ (uo : UpdateCredentialVariables → Bool) (ins : List CredentialInsertInput)
      (upds : List UpdateCredentialVariables), ins ≠ [] →
      commitCredentials true uo ins upds =
        (CredStoreOp.insertBulk ins :: (commitCredUpdates uo upds).1,
          (commitCredUpdates uo upds).2) ∧
      commitCredentials false uo ins upds =
        ([CredStoreOp.insertBulk ins], .error (.insertFailed ins.length))) ∧
    (∀ (io : Bool) (uo : UpdateCredentialVariables → Bool)
      (upds : List UpdateCredentialVariables),
      commitCredentials io uo [] upds = commitCredUpdates uo upds) ∧
    (∀ (uo : UpdateCredentialVariables → Bool) (upds : List UpdateCredentialVariables),
      (∀ u ∈ upds, uo u = true) →
      commitCredUpdates uo upds = (upds.map CredStoreOp.update, .ok ())) ∧
    (∀ (uo : UpdateCredentialVariables → Bool) (good : List UpdateCredentialVariables)
      (bad : UpdateCredentialVariables) (rest : List UpdateCredentialVariables),
      (∀ u ∈ good, uo u = true) → uo bad = false →
      commitCredUpdates uo (good ++ bad :: rest) =
        (good.map CredStoreOp.update ++ [CredStoreOp.update bad],
          .error (.updateFailed bad.name))) ∧
    (∀ (et : String → Option String) (now : String) (body : List (Option Exporter))
      (io : Bool) (uo : UpdateExporterVariables → Bool)
      (ins : List ExporterInsertInput) (upds : List UpdateExporterVariables),
      expLoop et now body [] [] = .ok (ins, upds) → ins.length + upds.length ≠ 0 →
      writeExportersCore et now body io uo = commitExporters io uo ins upds) ∧
    (∀ (uo : UpdateExporterVariables → Bool) (ins : List ExporterInsertInput)
      (upds : List UpdateExporterVariables), ins ≠ [] →
      commitExporters true uo ins upds =
        (ExpStoreOp.insertBulk ins :: (commitExpUpdates uo upds).1,
          (commitExpUpdates uo upds).2) ∧
      commitExporters false uo ins upds =
        ([ExpStoreOp.insertBulk ins], .error (.insertFailed ins.length))) ∧
    (∀ (io : Bool) (uo : UpdateExporterVariables → Bool)
      (upds : List UpdateExporterVariables),
      commitExporters io uo [] upds = commitExpUpdates uo upds) ∧
    (∀ (uo : UpdateExporterVariables → Bool) (upds : List UpdateExporterVariables),
      (∀ u ∈ upds, uo u = true) →
      commitExpUpdates uo upds = (upds.map ExpStoreOp.update, .ok ())) ∧
    (∀ (uo : UpdateExporterVariables → Bool) (good : List UpdateExporterVariables)
      (bad : UpdateExporterVariables) (rest : List UpdateExporterVariables),
      (∀ u ∈ good, uo u = true) → uo bad = false →
      commitExpUpdates uo (good ++ bad :: rest) =
        (good.map ExpStoreOp.update ++ [ExpStoreOp.update bad],
          .error (.updateFailed bad.name))) := by
  refine ⟨?_, ?_, ?_, ?_, ?_, ?_, ?_, ?_, ?_, ?_⟩
  · intro et now body io uo ins upds h hne
    exact writeCredentialsCore_of_loop_ok io uo h hne
  · intro uo ins upds hne
    exact ⟨commitCredentials_insert_ok uo ins upds hne,
      commitCredentials_insert_fail uo ins upds hne⟩
  · exact commitCredentials_no_inserts
  · exact commitCredUpdates_all_ok
  · exact commitCredUpdates_first_fail
  · intro et now body io uo ins upds h hne
    exact writeExportersCore_of_loop_ok io uo h hne
  · intro uo ins upds hne
    exact ⟨commitExporters_insert_ok uo ins upds hne,
      commitExporters_insert_fail uo ins upds hne⟩
  · exact commitExporters_no_inserts
  · exact commitExpUpdates_all_ok
  · exact commitExpUpdates_first_fail

theorem C7_witness :
    (writeCredentialsCore (fun n => if n = "c1" then some "gcp-service-account" else none)
      "T" [some ⟨"c0", "gcp-service-account", Yaml.str "1"⟩,
        some ⟨"c1", "gcp-service-account", Yaml.str "2"⟩] true (fun _ => false) =
      commitCredentials true (fun _ => false)
        [⟨"c0", "gcp-service-account", "1", "T", "T"⟩] [⟨"c1", "2", "T"⟩]) ∧
    (commitCredentials true (fun _ => true) [⟨"c0", "t", "v", "T", "T"⟩] [] =
      (CredStoreOp.insertBulk [⟨"c0", "t", "v", "T", "T"⟩] ::
        (commitCredUpdates (fun _ => true) []).1,
        (commitCredUpdates (fun _ => true) []).2) ∧
      commitCredentials false (fun _ => true) [⟨"c0", "t", "v", "T", "T"⟩] [] =
        ([CredStoreOp.insertBulk [⟨"c0", "t", "v", "T", "T"⟩]],
          .error (.insertFailed ([⟨"c0", "t", "v", "T", "T"⟩] :
            List CredentialInsertInput).length))) ∧
    (commitCredentials true (fun _ => true) [] [⟨"a", "v", "T"⟩] =
      commitCredUpdates (fun _ => true) [⟨"a", "v", "T"⟩]) ∧
    (commitCredUpdates (fun _ => true) [⟨"a", "v", "T"⟩, ⟨"b", "v", "T"⟩] =
      ([⟨"a", "v", "T"⟩, ⟨"b", "v", "T"⟩].map CredStoreOp.update, .ok ())) ∧
    (commitCredUpdates (fun u => u.name != "bad")
      ([⟨"a", "v", "T"⟩] ++ ⟨"bad", "v", "T"⟩ :: [⟨"c", "v", "T"⟩]) =
      (([⟨"a", "v", "T"⟩] : List UpdateCredentialVariables).map CredStoreOp.update ++
        [CredStoreOp.update ⟨"bad", "v", "T"⟩],
        .error (.updateFailed (⟨"bad", "v", "T"⟩ : UpdateCredentialVariables).name))) ∧
    (writeExportersCore (fun n => if n = "e1" then some "cloudwatch" else none)
      "T" [some ⟨"e0", "cloudwatch", "", Yaml.map []⟩,
        some ⟨"e1", "cloudwatch", "", Yaml.map []⟩] true (fun _ => false) =
      commitExporters true (fun _ => false)
        [⟨"e0", "cloudwatch", none, "\x7b\x7d", "T", "T"⟩]
        [⟨"e1", none, "\x7b\x7d", "T"⟩]) ∧
    (commitExporters true (fun _ => true) [⟨"e0", "t", none, "\x7b\x7d", "T", "T"⟩] [] =
      (ExpStoreOp.insertBulk [⟨"e0", "t", none, "\x7b\x7d", "T", "T"⟩] ::
        (commitExpUpdates (fun _ => true) []).1,
        (commitExpUpdates (fun _ => true) []).2) ∧
      commitExporters false (fun _ => true) [⟨"e0", "t", none, "\x7b\x7d", "T", "T"⟩] [] =
        ([ExpStoreOp.insertBulk [⟨"e0", "t", none, "\x7b\x7d", "T", "T"⟩]],
          .error (.insertFailed ([⟨"e0", "t", none, "\x7b\x7d", "T", "T"⟩] :
            List ExporterInsertInput).length))) ∧
    (commitExporters true (fun _ => true) [] [⟨"a", none, "\x7b\x7d", "T"⟩] =
      commitExpUpdates (fun _ => true) [⟨"a", none, "\x7b\x7d", "T"⟩]) ∧
    (commitExpUpdates (fun _ => true) [⟨"a", none, "\x7b\x7d", "T"⟩] =
      ([⟨"a", none, "\x7b\x7d", "T"⟩].map ExpStoreOp.update, .ok ())) ∧
    (commitExpUpdates (fun u => u.name != "bad")
      ([] ++ ⟨"bad", none, "\x7b\x7d", "T"⟩ :: []) =
      (([] : List UpdateExporterVariables).map ExpStoreOp.update ++
        [ExpStoreOp.update ⟨"bad", none, "\x7b\x7d", "T"⟩],
        .error (.updateFailed (⟨"bad", none, "\x7b\x7d", "T"⟩ :
          UpdateExporterVariables).name))) := by
  refine ⟨?_, ?_, ?_, ?_, ?_, ?_, ?_, ?_, ?_, ?_⟩
  · exact C7_commit_semantics.1 _ "T" _ true (fun _ => false)
      [⟨"c0", "gcp-service-account", "1", "T", "T"⟩] [⟨"c1", "2", "T"⟩] rfl (by decide)
  · exact C7_commit_semantics.2.1 (fun _ => true) _ [] (by simp)
  · exact C7_commit_semantics.2.2.1 true (fun _ => true) _
  · exact C7_commit_semantics.2.2.2.1 (fun _ => true) _ (by intro u _; rfl)
  · exact C7_commit_semantics.2.2.2.2.1 (fun u => u.name != "bad") [⟨"a", "v", "T"⟩]
      ⟨"bad", "v", "T"⟩ [⟨"c", "v", "T"⟩]
      (by intro u hu; rw [List.mem_singleton] at hu; subst hu; rfl) rfl
  · exact C7_commit_semantics.2.2.2.2.2.1 _ "T" _ true (fun _ => false)
      [⟨"e0", "cloudwatch", none, "\x7b\x7d", "T", "T"⟩]
      [⟨"e1", none, "\x7b\x7d", "T"⟩] rfl (by decide)
  · exact C7_commit_semantics.2.2.2.2.2.2.1 (fun _ => true) _ [] (by simp)
  · exact C7_commit_semantics.2.2.2.2.2.2.2.1 true (fun _ => true) _
  · exact C7_commit_semantics.2.2.2.2.2.2.2.2.1 (fun _ => true) _ (by intro u _; rfl)
  · exact C7_commit_semantics.2.2.2.2.2.2.2.2.2 (fun u => u.name != "bad") []
      ⟨"bad", none, "\x7b\x7d", "T"⟩ [] (by intro u hu; simp at hu) rfl

/-- C9 counterexample: a submitted exporter record with an empty `type`
whose name is not in the existing set is not rejected — the handler
validates it, classifies it as an insert carrying the empty type, and
submits the bulk insert, returning success. This refutes the claim that
the type field is required for exporter inserts. -/
theorem C9_counterexample :
    writeExportersCore (fun _ => none) "2021-01-01T00:00:00Z"
      [some ⟨"e1", "", "", Yaml.map []⟩] true (fun _ => true) =
      ([ExpStoreOp.insertBulk
        [⟨"e1", "", none, "\x7b\x7d", "2021-01-01T00:00:00Z", "2021-01-01T00:00:00Z"⟩]],
        .ok ()) := rfl

/-- C9 amended: the exporter handler does not require a non-empty `type`
for inserts — a record with empty type and valid config whose name is
absent from the existing set becomes an insert candidate carrying the
empty type (requiredness, if any, is left to the store layer). -/
theorem C9_amended_empty_type_inserted (et : String → Option String) (now : String)
    (e : Exporter) (rest : List (Option Exporter)) (ins : List ExporterInsertInput)
    (upds : List UpdateExporterVariables) (g : String)
    (h1 : e.type = "") (h2 : et e.name = none) (h3 : expConfigJson e = some g) :
    expLoop et now (some e :: rest) ins upds =
      expLoop et now rest
        (ins ++ [⟨e.name, "", exporterCredentialRef e, g, now, now⟩]) upds := by
  rw [expLoop_cons_insert now rest ins upds h3 h2, h1]

theorem C9_amended_witness :
    expLoop (fun _ => none) "T" [some ⟨"e1", "", "", Yaml.map []⟩] [] [] =
      expLoop (fun _ => none) "T" []
        ([] ++ [⟨"e1", "", none, "\x7b\x7d", "T", "T"⟩]) [] :=
  C9_amended_empty_type_inserted (fun _ => none) "T"
    ⟨"e1", "", "", Yaml.map []⟩ [] [] [] "\x7b\x7d" rfl rfl rfl

/-- C10: the insert-vs-update classification of each record depends only on
the existing-resource mapping fetched once at the start of the request —
the loop never extends it — so the operation lists are pointwise images of
the per-record classifiers `credInsertOf`/`credUpdateOf` (resp. exporter):
in particular two valid records sharing one not-yet-existing name both
become inserts, and two sharing one existing name both become updates. -/
theorem C10_classification_is_pointwise :
    (∀ (et : String → Option String) (now : String) (recs : List Credential),
      (∀ c ∈ recs, credRecordBad et (some c) = false) →
      credLoop et now (recs.map some) [] [] =
        .ok (recs.filterMap (credInsertOf et now), recs.filterMap (credUpdateOf et now))) ∧
    (∀ (et : String → Option String) (now : String) (recs : List Exporter),
      (∀ e ∈ recs, expRecordBad et (some e) = false) →
      expLoop et now (recs.map some) [] [] =
        .ok (recs.filterMap (expInsertOf et now), recs.filterMap (expUpdateOf et now))) ∧
    (∀ (et : String → Option String) (now : String) (c1 c2 : Credential) (v1 v2 : String),
      c1.name = c2.name → et c1.name = none →
      validateCredValue c1.name c1.type c1.value = .ok v1 →
      validateCredValue c2.name c2.type c2.value = .ok v2 →
      credLoop et now [some c1, some c2] [] [] =
        .ok ([⟨c1.name, c1.type, v1, now, now⟩, ⟨c2.name, c2.type, v2, now, now⟩], [])) ∧
    (∀ (et : String → Option String) (now : String) (c1 c2 : Credential)
      (v1 v2 t : String),
      c1.name = c2.name → et c1.name = some t →
      validateCredValue c1.name c1.type c1.value = .ok v1 →
      validateCredValue c2.name c2.type c2.value = .ok v2 →
      (c1.type = "" ∨ t = c1.type) → (c2.type = "" ∨ t = c2.type) →
      credLoop et now [some c1, some c2] [] [] =
        .ok ([], [⟨c1.name, v1, now⟩, ⟨c2.name, v2, now⟩])) := by
  refine ⟨credLoop_all_ok, expLoop_all_ok, ?_, ?_⟩
  · intro et now c1 c2 v1 v2 hn he hv1 hv2
    have he2 : et c2.name = none := by rw [← hn]; exact he
    rw [credLoop_cons_insert now _ [] [] hv1 he,
      credLoop_cons_insert now _ _ [] hv2 he2]
    simp [credLoop]
  · intro et now c1 c2 v1 v2 t hn he hv1 hv2 ht1 ht2
    have he2 : et c2.name = some t := by rw [← hn]; exact he
    rw [credLoop_cons_update now _ [] [] hv1 he ht1,
      credLoop_cons_update now _ [] _ hv2 he2 ht2]
    simp [credLoop]

theorem C10_witness :
    (credLoop (fun _ => none) "T"
      (([⟨"c1", "gcp-service-account", Yaml.str "1"⟩] : List Credential).map some) [] [] =
      .ok (([⟨"c1", "gcp-service-account", Yaml.str "1"⟩] : List Credential).filterMap
        (credInsertOf (fun _ => none) "T"),
        ([⟨"c1", "gcp-service-account", Yaml.str "1"⟩] : List Credential).filterMap
          (credUpdateOf (fun _ => none) "T"))) ∧
    (expLoop (fun _ => none) "T"
      (([⟨"e1", "cloudwatch", "", Yaml.map []⟩] : List Exporter).map some) [] [] =
      .ok (([⟨"e1", "cloudwatch", "", Yaml.map []⟩] : List Exporter).filterMap
        (expInsertOf (fun _ => none) "T"),
        ([⟨"e1", "cloudwatch", "", Yaml.map []⟩] : List Exporter).filterMap
          (expUpdateOf (fun _ => none) "T"))) ∧
    (credLoop (fun _ => none) "T"
      [some ⟨"dup", "gcp-service-account", Yaml.str "1"⟩,
        some ⟨"dup", "gcp-service-account", Yaml.str "2"⟩] [] [] =
      .ok ([⟨"dup", "gcp-service-account", "1", "T", "T"⟩,
        ⟨"dup", "gcp-service-account", "2", "T", "T"⟩], [])) ∧
    (credLoop (fun n => if n = "dup" then some "gcp-service-account" else none) "T"
      [some ⟨"dup", "gcp-service-account", Yaml.str "1"⟩,
        some ⟨"dup", "gcp-service-account", Yaml.str "2"⟩] [] [] =
      .ok ([], [⟨"dup", "1", "T"⟩, ⟨"dup", "2", "T"⟩])) := by
  refine ⟨?_, ?_, ?_, ?_⟩
  · exact C10_classification_is_pointwise.1 (fun _ => none) "T" _
      (by intro c hc; rw [List.mem_singleton] at hc; subst hc; rfl)
  · exact C10_classification_is_pointwise.2.1 (fun _ => none) "T" _
      (by intro e he; rw [List.mem_singleton] at he; subst he; rfl)
  · exact C10_classification_is_pointwise.2.2.1 (fun _ => none) "T"
      ⟨"dup", "gcp-service-account", Yaml.str "1"⟩
      ⟨"dup", "gcp-service-account", Yaml.str "2"⟩ "1" "2" rfl rfl rfl rfl
  · exact C10_classification_is_pointwise.2.2.2
      (fun n => if n = "dup" then some "gcp-service-account" else none) "T"
      ⟨"dup", "gcp-service-account", Yaml.str "1"⟩
      ⟨"dup", "gcp-service-account", Yaml.str "2"⟩ "1" "2" "gcp-service-account"
      rfl rfl rfl rfl (Or.inr rfl) (Or.inr rfl)
